import Mathlib

/-
  Verification development for the hyprwhspr global-shortcut engine
  (src/lib/hyprwhspr/global_shortcuts.py).

  The Python module is shallowly embedded below:
  * string handling (lower, strip, replace, split) is modelled by
    structural functions over the underlying character lists, so that all
    definitions evaluate inside the kernel;
  * the evdev key-name table (ecodes.ecodes) is an external dependency of
    the module; the parsers are therefore parametrised by a lookup function
    `ec : String -> Option Nat`, and a finite fragment of the real table
    (ecodesFrag) is used for concrete evaluations;
  * the mutable object state of class GlobalShortcuts is an explicit
    structure GS; event processing, shortcut checking, registration,
    discovery and stop are pure state-transition functions;
  * callbacks are opaque: a Shortcut records whether a (release) callback
    is present, and dispatching a callback is modelled by prepending the
    shortcut id to an invocation log.
-/

namespace PyStr

/-- Whitespace characters removed by the Python str.strip method. -/
def isSpace (c : Char) : Bool :=
  c = ' ' || c = '\t' || c = '\n' || c = '\r' || c = '\x0b' || c = '\x0c'

/-- Python str.lower restricted to the character range the module uses. -/
def lower (s : String) : String :=
  String.mk (s.data.map Char.toLower)

/-- Python str.upper restricted to the character range the module uses. -/
def upper (s : String) : String :=
  String.mk (s.data.map Char.toUpper)

/-- Python str.strip on the character list. -/
def stripChars (l : List Char) : List Char :=
  ((l.dropWhile isSpace).reverse.dropWhile isSpace).reverse

/-- Python str.strip. -/
def strip (s : String) : String :=
  String.mk (stripChars s.data)

/-- Characterwise prefix test (used for the startswith check). -/
def isPre : List Char → List Char → Bool
  | [], _ => true
  | _ :: _, [] => false
  | a :: as, b :: bs => a = b && isPre as bs

/-- Python s.replace(c, two-char-free removal): removing every occurrence of
a single character; removing two characters one after the other is the same
as filtering both out at once. -/
def removeChar (c : Char) (l : List Char) : List Char :=
  l.filter (fun x => !(x = c))

/-- Python s.split(sep) for a one-character separator, on character lists;
empty segments are kept, exactly as in Python. -/
def splitOnCharAux (sep : Char) : List Char → List Char → List (List Char)
  | [], acc => [acc.reverse]
  | c :: cs, acc =>
    if c = sep then acc.reverse :: splitOnCharAux sep cs []
    else splitOnCharAux sep cs (c :: acc)

def splitOnChar (sep : Char) (s : String) : List String :=
  (splitOnCharAux sep s.data []).map String.mk

end PyStr

namespace GlobalShortcuts

/-- KEY_ALIASES: the module-level mapping from human-friendly key names to
evdev KEY constant names, transcribed entry for entry from the source. -/
def KEY_ALIASES : List (String × String) := [
  -- Left-side modifiers
  ("ctrl", "KEY_LEFTCTRL"), ("control", "KEY_LEFTCTRL"), ("lctrl", "KEY_LEFTCTRL"),
  ("alt", "KEY_LEFTALT"), ("lalt", "KEY_LEFTALT"),
  ("shift", "KEY_LEFTSHIFT"), ("lshift", "KEY_LEFTSHIFT"),
  ("super", "KEY_LEFTMETA"), ("meta", "KEY_LEFTMETA"), ("lsuper", "KEY_LEFTMETA"),
  ("win", "KEY_LEFTMETA"), ("windows", "KEY_LEFTMETA"), ("cmd", "KEY_LEFTMETA"),
  -- Right-side modifiers
  ("rctrl", "KEY_RIGHTCTRL"), ("rightctrl", "KEY_RIGHTCTRL"),
  ("ralt", "KEY_RIGHTALT"), ("rightalt", "KEY_RIGHTALT"),
  ("rshift", "KEY_RIGHTSHIFT"), ("rightshift", "KEY_RIGHTSHIFT"),
  ("rsuper", "KEY_RIGHTMETA"), ("rightsuper", "KEY_RIGHTMETA"), ("rmeta", "KEY_RIGHTMETA"),
  -- Common special keys
  ("enter", "KEY_ENTER"), ("return", "KEY_ENTER"),
  ("backspace", "KEY_BACKSPACE"), ("bksp", "KEY_BACKSPACE"),
  ("tab", "KEY_TAB"),
  ("caps", "KEY_CAPSLOCK"), ("capslock", "KEY_CAPSLOCK"),
  ("esc", "KEY_ESC"), ("escape", "KEY_ESC"),
  ("space", "KEY_SPACE"), ("spacebar", "KEY_SPACE"),
  ("delete", "KEY_DELETE"), ("del", "KEY_DELETE"),
  ("insert", "KEY_INSERT"), ("ins", "KEY_INSERT"),
  ("home", "KEY_HOME"),
  ("end", "KEY_END"),
  ("pageup", "KEY_PAGEUP"), ("pgup", "KEY_PAGEUP"),
  ("pagedown", "KEY_PAGEDOWN"), ("pgdn", "KEY_PAGEDOWN"), ("pgdown", "KEY_PAGEDOWN"),
  -- Arrow keys
  ("up", "KEY_UP"), ("uparrow", "KEY_UP"),
  ("down", "KEY_DOWN"), ("downarrow", "KEY_DOWN"),
  ("left", "KEY_LEFT"), ("leftarrow", "KEY_LEFT"),
  ("right", "KEY_RIGHT"), ("rightarrow", "KEY_RIGHT"),
  -- Lock keys
  ("numlock", "KEY_NUMLOCK"),
  ("scrolllock", "KEY_SCROLLLOCK"), ("scroll", "KEY_SCROLLLOCK"),
  -- Function keys (f1-f24)
  ("f1", "KEY_F1"), ("f2", "KEY_F2"), ("f3", "KEY_F3"), ("f4", "KEY_F4"),
  ("f5", "KEY_F5"), ("f6", "KEY_F6"), ("f7", "KEY_F7"), ("f8", "KEY_F8"),
  ("f9", "KEY_F9"), ("f10", "KEY_F10"), ("f11", "KEY_F11"), ("f12", "KEY_F12"),
  ("f13", "KEY_F13"), ("f14", "KEY_F14"), ("f15", "KEY_F15"), ("f16", "KEY_F16"),
  ("f17", "KEY_F17"), ("f18", "KEY_F18"), ("f19", "KEY_F19"), ("f20", "KEY_F20"),
  ("f21", "KEY_F21"), ("f22", "KEY_F22"), ("f23", "KEY_F23"), ("f24", "KEY_F24"),
  -- Numpad keys
  ("kp0", "KEY_KP0"), ("kp1", "KEY_KP1"), ("kp2", "KEY_KP2"), ("kp3", "KEY_KP3"),
  ("kp4", "KEY_KP4"), ("kp5", "KEY_KP5"), ("kp6", "KEY_KP6"), ("kp7", "KEY_KP7"),
  ("kp8", "KEY_KP8"), ("kp9", "KEY_KP9"),
  ("kpenter", "KEY_KPENTER"), ("kpplus", "KEY_KPPLUS"), ("kpminus", "KEY_KPMINUS"),
  ("kpmultiply", "KEY_KPASTERISK"), ("kpdivide", "KEY_KPSLASH"),
  ("kpdot", "KEY_KPDOT"), ("kpperiod", "KEY_KPDOT"),
  -- Media keys
  ("mute", "KEY_MUTE"), ("volumemute", "KEY_MUTE"),
  ("volumeup", "KEY_VOLUMEUP"), ("volup", "KEY_VOLUMEUP"),
  ("volumedown", "KEY_VOLUMEDOWN"), ("voldown", "KEY_VOLUMEDOWN"),
  ("play", "KEY_PLAYPAUSE"), ("playpause", "KEY_PLAYPAUSE"),
  ("stop", "KEY_STOPCD"), ("mediastop", "KEY_STOPCD"),
  ("nextsong", "KEY_NEXTSONG"), ("next", "KEY_NEXTSONG"),
  ("previoussong", "KEY_PREVIOUSSONG"), ("prev", "KEY_PREVIOUSSONG"),
  -- Browser keys
  ("browser", "KEY_WWW"),
  ("browserback", "KEY_BACK"),
  ("browserforward", "KEY_FORWARD"),
  ("refresh", "KEY_REFRESH"),
  ("browsersearch", "KEY_SEARCH"),
  ("favorites", "KEY_BOOKMARKS"),
  -- System keys
  ("menu", "KEY_MENU"),
  ("print", "KEY_PRINT"), ("printscreen", "KEY_SYSRQ"), ("prtsc", "KEY_SYSRQ"),
  ("pause", "KEY_PAUSE"), ("break", "KEY_PAUSE"),
  ("sysrq", "KEY_SYSRQ"),
  -- Punctuation and symbol keys
  (".", "KEY_DOT"), ("dot", "KEY_DOT"), ("period", "KEY_DOT"),
  (",", "KEY_COMMA"), ("comma", "KEY_COMMA"),
  ("/", "KEY_SLASH"), ("slash", "KEY_SLASH"),
  ("\\", "KEY_BACKSLASH"), ("backslash", "KEY_BACKSLASH"),
  (";", "KEY_SEMICOLON"), ("semicolon", "KEY_SEMICOLON"),
  ("\x27", "KEY_APOSTROPHE"), ("apostrophe", "KEY_APOSTROPHE"), ("quote", "KEY_APOSTROPHE"),
  ("[", "KEY_LEFTBRACE"), ("leftbrace", "KEY_LEFTBRACE"), ("lbrace", "KEY_LEFTBRACE"),
  ("]", "KEY_RIGHTBRACE"), ("rightbrace", "KEY_RIGHTBRACE"), ("rbrace", "KEY_RIGHTBRACE"),
  ("-", "KEY_MINUS"), ("minus", "KEY_MINUS"), ("dash", "KEY_MINUS"),
  ("=", "KEY_EQUAL"), ("equal", "KEY_EQUAL"), ("equals", "KEY_EQUAL"),
  ("\x60", "KEY_GRAVE"), ("grave", "KEY_GRAVE"), ("backtick", "KEY_GRAVE"),
  -- Number keys (top row)
  ("0", "KEY_0"), ("1", "KEY_1"), ("2", "KEY_2"), ("3", "KEY_3"), ("4", "KEY_4"),
  ("5", "KEY_5"), ("6", "KEY_6"), ("7", "KEY_7"), ("8", "KEY_8"), ("9", "KEY_9"),
  -- Letter keys
  ("a", "KEY_A"), ("b", "KEY_B"), ("c", "KEY_C"), ("d", "KEY_D"), ("e", "KEY_E"),
  ("f", "KEY_F"), ("g", "KEY_G"), ("h", "KEY_H"), ("i", "KEY_I"), ("j", "KEY_J"),
  ("k", "KEY_K"), ("l", "KEY_L"), ("m", "KEY_M"), ("n", "KEY_N"), ("o", "KEY_O"),
  ("p", "KEY_P"), ("q", "KEY_Q"), ("r", "KEY_R"), ("s", "KEY_S"), ("t", "KEY_T"),
  ("u", "KEY_U"), ("v", "KEY_V"), ("w", "KEY_W"), ("x", "KEY_X"), ("y", "KEY_Y"),
  ("z", "KEY_Z")]

/-- Dictionary lookup in the alias table (Python: KEY_ALIASES[key_string]
guarded by a membership test; the literal has no duplicate keys, so the
first match is the dictionary value). -/
def aliasLookup (key : String) : Option String :=
  (KEY_ALIASES.find? (fun p => p.1.data == key.data)).map (fun p => p.2)

/-- GlobalShortcuts._string_to_keycode, parametrised by the evdev
ecodes.ecodes table (an external dependency of the module). -/
def string_to_keycode (ec : String → Option Nat) (key_string : String) : Option Nat :=
  let ks := PyStr.strip (PyStr.lower key_string)
  let key_name :=
    match aliasLookup ks with
    | some name => name
    | none =>
      -- 2. Try as a direct evdev KEY name
      let u := PyStr.upper ks
      if PyStr.isPre ("KEY_").data u.data then u
      else String.mk (("KEY_").data ++ u.data)
  ec key_name

/-- The segment list built by _parse_key_combination before resolving:
lower, strip, remove angle brackets, split on the plus sign. -/
def combination_parts (key_string : String) : List String :=
  let key_lower := PyStr.strip (PyStr.lower key_string)
  let key_lower := String.mk (PyStr.removeChar '>' (PyStr.removeChar '<' key_lower.data))
  PyStr.splitOnChar '+' key_lower

/-- The resolution loop of _parse_key_combination: each part is stripped
and resolved; any unresolved part fails the whole combination (the Python
loop returns None immediately; since the accumulator is a set, the early
return is equivalent to this recursion). -/
def resolve_parts (ec : String → Option Nat) : List String → Option (Finset Nat)
  | [] => some ∅
  | part :: rest =>
    match string_to_keycode ec (PyStr.strip part) with
    | some keycode => (resolve_parts ec rest).map (fun keys => insert keycode keys)
    | none => none

/-- GlobalShortcuts._parse_key_combination. -/
def parse_key_combination (ec : String → Option Nat) (key_string : String) :
    Option (Finset Nat) :=
  resolve_parts ec (combination_parts key_string)

/-- _string_to_keycode_standalone (module level; textually the same
resolution as the method). -/
def string_to_keycode_standalone (ec : String → Option Nat) (key_string : String) :
    Option Nat :=
  let ks := PyStr.strip (PyStr.lower key_string)
  let key_name :=
    match aliasLookup ks with
    | some name => name
    | none =>
      let u := PyStr.upper ks
      if PyStr.isPre ("KEY_").data u.data then u
      else String.mk (("KEY_").data ++ u.data)
  ec key_name

/-- The resolution loop of _parse_key_combination_standalone: unresolved
parts are silently skipped. -/
def resolve_parts_standalone (ec : String → Option Nat) : List String → Finset Nat
  | [] => ∅
  | part :: rest =>
    match string_to_keycode_standalone ec (PyStr.strip part) with
    | some keycode => insert keycode (resolve_parts_standalone ec rest)
    | none => resolve_parts_standalone ec rest

/-- _parse_key_combination_standalone (module level): resolves what it can,
and falls back to the singleton KEY_F12 = 88 when nothing resolved. -/
def parse_key_combination_standalone (ec : String → Option Nat) (key_string : String) :
    Finset Nat :=
  let keys := resolve_parts_standalone ec (combination_parts key_string)
  if keys = ∅ then {88} else keys

/-- A registered shortcut (class Shortcut, a NamedTuple). The two callback
fields are opaque function values; the embedding records only whether they
are present (the _trigger callbacks test truthiness before dispatching). -/
structure Shortcut where
  id : String
  target_keys : Finset Nat
  has_callback : Bool
  has_release_callback : Bool
deriving DecidableEq

/-- GlobalShortcuts.MODIFIER_KEYS, with the evdev constants resolved to
their Linux input event codes: KEY_LEFTCTRL = 29, KEY_RIGHTCTRL = 97,
KEY_LEFTALT = 56, KEY_RIGHTALT = 100, KEY_LEFTSHIFT = 42,
KEY_RIGHTSHIFT = 54, KEY_LEFTMETA = 125, KEY_RIGHTMETA = 126. -/
def MODIFIER_KEYS : Finset Nat := {29, 97, 56, 100, 42, 54, 125, 126}

/-- self.debounce_time = 0.1 (100 ms, in seconds). -/
def debounce_time : ℚ := 1 / 10

/-- One raw evdev input event: type, code and value; `time` is the wall
clock value time.time() would return when the event is processed (the
Python code samples the clock inside the checking helpers). For EV_KEY
events the categorized keystate equals the value field
(key_up = 0, key_down = 1, repeat = 2), and ecodes.EV_KEY = 1. -/
structure KeyEvent where
  etype : Nat
  code : Nat
  value : Nat
  time : ℚ
deriving DecidableEq

/-- A physical input device as discovery sees it: its path, its EV_KEY
capability list (none when the device reports no EV_KEY capability at
all), and whether the exclusive grab/ungrab probe would succeed. -/
structure InDevice where
  path : String
  keyCaps : Option (Finset Nat)
  grabbable : Bool
deriving DecidableEq

/-- The mutable state of a GlobalShortcuts object (the fields assigned in
the constructor). Thread handles and the stop event are process-level
objects with no bearing on the state claims and are not modelled; the
UInput virtual keyboard is modelled by a presence flag. The two
invocation logs record dispatched press/release callbacks (newest
first). -/
structure GS where
  selected_device_path : Option String
  grab_keys : Bool
  devices : List InDevice
  is_running : Bool
  uinput : Bool
  devices_grabbed : Bool
  pressed_keys : Finset Nat
  last_trigger_times : List (String × ℚ)
  last_release_times : List (String × ℚ)
  active_shortcuts : Finset String
  suppressed_keys : Finset Nat
  shortcuts : List Shortcut
  all_required_keys : Finset Nat
  press_invocations : List String
  release_invocations : List String
deriving DecidableEq

/-- GlobalShortcuts.__init__. -/
def init (device_path : Option String) (grab_keys : Bool) : GS :=
  { selected_device_path := device_path
    grab_keys := grab_keys
    devices := []
    is_running := false
    uinput := false
    devices_grabbed := false
    pressed_keys := ∅
    last_trigger_times := []
    last_release_times := []
    active_shortcuts := ∅
    suppressed_keys := ∅
    shortcuts := []
    all_required_keys := ∅
    press_invocations := []
    release_invocations := [] }

/-- Python dict .get with default 0 (the shape of the timestamp maps). -/
def dict_get (m : List (String × ℚ)) (k : String) : ℚ :=
  match m.find? (fun p => p.1.data == k.data) with
  | some p => p.2
  | none => 0

/-- Python dict item assignment for the timestamp maps. -/
def dict_set (m : List (String × ℚ)) (k : String) (v : ℚ) : List (String × ℚ) :=
  (k, v) :: m.filter (fun p => !(p.1.data == k.data))

/-- The match test of _check_all_shortcut_combinations: the target keys
must all be pressed, and the extra pressed keys must contain no modifier. -/
def is_match (pressed : Finset Nat) (sc : Shortcut) : Bool :=
  if ¬ sc.target_keys ⊆ pressed then false
  else decide (((pressed \ sc.target_keys) ∩ MODIFIER_KEYS) = ∅)

/-- The body of the per-shortcut loop in _check_all_shortcut_combinations,
with _trigger_callback inlined as a log append guarded by callback
presence. -/
def check_shortcut (current_time : ℚ) (st : GS) (sc : Shortcut) : GS :=
  if is_match st.pressed_keys sc then
    -- last_trigger = self.last_trigger_times.get(shortcut.id, 0)
    if sc.id ∉ st.active_shortcuts ∧
        current_time - dict_get st.last_trigger_times sc.id > debounce_time then
      { st with
        last_trigger_times := dict_set st.last_trigger_times sc.id current_time
        active_shortcuts := insert sc.id st.active_shortcuts
        press_invocations :=
          if sc.has_callback then sc.id :: st.press_invocations else st.press_invocations }
    else st
  else
    if sc.id ∈ st.active_shortcuts then
      { st with active_shortcuts := st.active_shortcuts.erase sc.id }
    else st

/-- GlobalShortcuts._check_all_shortcut_combinations. -/
def check_all_shortcut_combinations (current_time : ℚ) (st : GS) : GS :=
  st.shortcuts.foldl (check_shortcut current_time) st

/-- The body of the per-shortcut loop in _check_all_combinations_release.
The was_active_map dict (id -> bool over all shortcut ids, default False)
is passed as the set of ids it maps to True. _trigger_release_callback is
inlined as a log append guarded by callback presence. -/
def check_combination_release (current_time : ℚ) (was_active : Finset String)
    (st : GS) (sc : Shortcut) : GS :=
  if sc.id ∈ was_active then
    if ¬ sc.target_keys ⊆ st.pressed_keys then
      -- last_release = self.last_release_times.get(shortcut.id, 0)
      if current_time - dict_get st.last_release_times sc.id > debounce_time then
        { st with
          last_release_times := dict_set st.last_release_times sc.id current_time
          release_invocations :=
            if sc.has_release_callback then sc.id :: st.release_invocations
            else st.release_invocations }
      else st
    else st
  else st

/-- GlobalShortcuts._check_all_combinations_release. -/
def check_all_combinations_release (current_time : ℚ) (was_active : Finset String)
    (st : GS) : GS :=
  st.shortcuts.foldl (check_combination_release current_time was_active) st

/-- The key-down suppression scan in _process_event: for each shortcut
completed by this key with no extra modifiers pressed, a non-modifier key
is marked suppressed (the matched_shortcut local is never read afterwards
and is dropped). The accumulator is (should_suppress, suppressed_keys). -/
def key_down_scan (shortcuts : List Shortcut) (pressed : Finset Nat) (code : Nat)
    (acc0 : Bool × Finset Nat) : Bool × Finset Nat :=
  shortcuts.foldl
    (fun acc sc =>
      if code ∈ sc.target_keys ∧ sc.target_keys ⊆ pressed then
        if ((pressed \ sc.target_keys) ∩ MODIFIER_KEYS) = ∅ then
          if code ∉ MODIFIER_KEYS then (true, insert code acc.2) else acc
        else acc
      else acc)
    acc0

/-- GlobalShortcuts._process_event. The returned boolean is
should_suppress; a suppressed event is withheld from re-emission, all
others are written to the virtual keyboard when grabbing is active. -/
def process_event (st : GS) (e : KeyEvent) : GS × Bool :=
  if e.etype = 1 then -- ecodes.EV_KEY
    if e.value = 1 then -- key down
      let pressed := insert e.code st.pressed_keys
      let scan := key_down_scan st.shortcuts pressed e.code (false, st.suppressed_keys)
      let st1 := { st with pressed_keys := pressed, suppressed_keys := scan.2 }
      (check_all_shortcut_combinations e.time st1, scan.1)
    else if e.value = 0 then -- key up
      -- was_active_map is captured from active_shortcuts before any change;
      -- pressed_keys is updated by discard, then a suppressed key has its
      -- suppression cleared and, unless it is a modifier, its release is
      -- suppressed too; finally the release pass runs
      (check_all_combinations_release e.time st.active_shortcuts
        (if e.code ∈ st.suppressed_keys then
          { st with
            pressed_keys := st.pressed_keys.erase e.code
            suppressed_keys := st.suppressed_keys.erase e.code }
         else { st with pressed_keys := st.pressed_keys.erase e.code }),
       if e.code ∈ st.suppressed_keys then decide (e.code ∉ MODIFIER_KEYS) else false)
    else if e.value = 2 then -- key repeat
      (st, decide (e.code ∈ st.suppressed_keys))
    else
      (st, false)
  else
    -- non-key events are passed through unconditionally
    (st, false)

/-- Processing a list of events in order (the per-device drain loop feeds
events to _process_event one by one). -/
def process_events (st : GS) (es : List KeyEvent) : GS :=
  es.foldl (fun s e => (process_event s e).1) st

/-- GlobalShortcuts.add_shortcut, parametrised like the parser by the
evdev table. Python tests the parse result for falsiness, which rejects
both None and an empty set. -/
def add_shortcut (ec : String → Option Nat) (st : GS) (key_string : String)
    (has_callback : Bool) (has_release_callback : Bool) : Option String × GS :=
  match parse_key_combination ec key_string with
  | none => (none, st)
  | some target_keys =>
    if target_keys = ∅ then (none, st)
    else
      let shortcut_id := key_string ++ "_" ++ toString st.shortcuts.length
      (some shortcut_id,
       { st with
         shortcuts := st.shortcuts ++ [⟨shortcut_id, target_keys, has_callback,
                                        has_release_callback⟩]
         all_required_keys := st.all_required_keys ∪ target_keys })

/-- GlobalShortcuts._cleanup_key_grabbing: best-effort ungrab of every
device, then close the virtual keyboard; both flags end up cleared. -/
def cleanup_key_grabbing (st : GS) : GS :=
  if st.devices_grabbed then
    if st.uinput then { st with devices_grabbed := false, uinput := false }
    else { st with devices_grabbed := false }
  else
    if st.uinput then { st with uinput := false } else st

/-- GlobalShortcuts.stop: a no-op unless running; otherwise signal and
join the listener thread (not modelled), clean up grabbing, remove every
device, and clear pressed_keys and suppressed_keys. -/
def stop (st : GS) : GS :=
  if ¬ st.is_running then st
  else
    let st := cleanup_key_grabbing st
    let st := { st with devices := [] }
    { st with
      is_running := false
      pressed_keys := ∅
      suppressed_keys := ∅ }

/-- The per-device body of the discovery loop in _discover_keyboards,
folded over the candidate devices with the accumulated self.devices list:
devices without EV_KEY capability are skipped; a device that cannot emit
every key of at least one shortcut is skipped unless a device path was
explicitly selected (then it is kept with a warning); the grab/ungrab
probe then decides: on success the device is appended (and, for an
explicit selection, the loop breaks), on failure the loop aborts for an
explicit selection and skips the device otherwise. -/
def discover_loop (selected : Bool) (shortcuts : List Shortcut)
    (acc : List InDevice) : List InDevice → List InDevice
  | [] => acc
  | d :: ds =>
    match d.keyCaps with
    | none => discover_loop selected shortcuts acc ds
    | some available_keys =>
      let can_emit_any_shortcut := shortcuts.any (fun sc => sc.target_keys ⊆ available_keys)
      if ¬ can_emit_any_shortcut ∧ ¬ selected then
        discover_loop selected shortcuts acc ds
      else if d.grabbable then
        if selected then acc ++ [d]
        else discover_loop selected shortcuts (acc ++ [d]) ds
      else
        if selected then acc
        else discover_loop selected shortcuts acc ds

/-- The explicit-path selection scan of _discover_keyboards: the loop
assigns the matching device (the last match wins; paths are unique in
practice) and closes the rest. -/
def find_selected (os_devices : List InDevice) (p : String) : Option InDevice :=
  os_devices.foldl (fun acc d => if d.path.data == p.data then some d else acc) none

/-- GlobalShortcuts._discover_keyboards over a snapshot of the OS device
list: self.devices is reset, then populated by the loop; with an explicit
selected path the candidate list is the selected device alone, and a
missing selected device is reported non-fatally leaving zero devices. -/
def discover_keyboards (st : GS) (os_devices : List InDevice) : GS :=
  -- self.devices is reset first and then populated by the loop; the final
  -- devices list is written directly below
  if st.shortcuts.isEmpty then { st with devices := [] }
  else
    match st.selected_device_path with
    | some p =>
      match find_selected os_devices p with
      | none => { st with devices := [] }
      | some d => { st with devices := discover_loop true st.shortcuts [] [d] }
    | none => { st with devices := discover_loop false st.shortcuts [] os_devices }

end GlobalShortcuts

/-- A finite fragment of the evdev ecodes.ecodes table (Linux input event
codes), carrying exactly the entries needed for concrete evaluations; every
listed pair matches the real table, and none of the deliberately unknown
names queried below (such as KEY_BOGUSQQ) exist in the real table either. -/
def ecodesFrag : String → Option Nat := fun name =>
  ((([
    ("KEY_ESC", 1), ("KEY_ENTER", 28), ("KEY_LEFTCTRL", 29),
    ("KEY_A", 30), ("KEY_S", 31), ("KEY_D", 32),
    ("KEY_LEFTSHIFT", 42), ("KEY_RIGHTSHIFT", 54),
    ("KEY_LEFTALT", 56), ("KEY_SPACE", 57),
    ("KEY_F9", 67), ("KEY_F12", 88),
    ("KEY_RIGHTCTRL", 97), ("KEY_RIGHTALT", 100),
    ("KEY_LEFTMETA", 125), ("KEY_RIGHTMETA", 126)
  ] : List (String × Nat)).find? (fun p => p.1.data == name.data)).map (fun p => p.2))

-- Sanity checks on the parser layer (kernel-evaluable).
example : GlobalShortcuts.parse_key_combination ecodesFrag ("ctrl+d") = some {29, 32} := by
  decide
example : GlobalShortcuts.parse_key_combination ecodesFrag ("Ctrl+Bogusqq") = none := by
  decide
example : GlobalShortcuts.parse_key_combination_standalone ecodesFrag ("ctrl+bogusqq") = {29} := by
  decide
example : GlobalShortcuts.parse_key_combination_standalone ecodesFrag ("bogusqq") = {88} := by
  decide
example : GlobalShortcuts.parse_key_combination ecodesFrag ("<SUPER+ALT+D>") = some {125, 56, 32} := by
  decide


namespace GlobalShortcuts

/-! ### Frame lemmas: which fields each checking pass can touch -/

theorem check_shortcut_pressed (t : ℚ) (st : GS) (sc : Shortcut) :
    (check_shortcut t st sc).pressed_keys = st.pressed_keys := by
  unfold check_shortcut; split <;> split <;> rfl

theorem check_shortcut_suppressed (t : ℚ) (st : GS) (sc : Shortcut) :
    (check_shortcut t st sc).suppressed_keys = st.suppressed_keys := by
  unfold check_shortcut; split <;> split <;> rfl

theorem check_shortcut_shortcuts (t : ℚ) (st : GS) (sc : Shortcut) :
    (check_shortcut t st sc).shortcuts = st.shortcuts := by
  unfold check_shortcut; split <;> split <;> rfl

theorem check_shortcut_release_inv (t : ℚ) (st : GS) (sc : Shortcut) :
    (check_shortcut t st sc).release_invocations = st.release_invocations := by
  unfold check_shortcut; split <;> split <;> rfl

theorem check_shortcut_lr (t : ℚ) (st : GS) (sc : Shortcut) :
    (check_shortcut t st sc).last_release_times = st.last_release_times := by
  unfold check_shortcut; split <;> split <;> rfl

theorem foldl_check_shortcut_pressed (t : ℚ) :
    ∀ (l : List Shortcut) (st : GS),
      (l.foldl (check_shortcut t) st).pressed_keys = st.pressed_keys
  | [], _ => rfl
  | sc :: l, st => by
    rw [List.foldl_cons, foldl_check_shortcut_pressed t l, check_shortcut_pressed]

theorem foldl_check_shortcut_suppressed (t : ℚ) :
    ∀ (l : List Shortcut) (st : GS),
      (l.foldl (check_shortcut t) st).suppressed_keys = st.suppressed_keys
  | [], _ => rfl
  | sc :: l, st => by
    rw [List.foldl_cons, foldl_check_shortcut_suppressed t l, check_shortcut_suppressed]

theorem check_combination_release_pressed (t : ℚ) (w : Finset String) (st : GS) (sc : Shortcut) :
    (check_combination_release t w st sc).pressed_keys = st.pressed_keys := by
  unfold check_combination_release; split <;> try rfl
  split <;> try rfl
  split <;> rfl

theorem check_combination_release_suppressed (t : ℚ) (w : Finset String) (st : GS)
    (sc : Shortcut) :
    (check_combination_release t w st sc).suppressed_keys = st.suppressed_keys := by
  unfold check_combination_release; split <;> try rfl
  split <;> try rfl
  split <;> rfl

theorem check_combination_release_active (t : ℚ) (w : Finset String) (st : GS) (sc : Shortcut) :
    (check_combination_release t w st sc).active_shortcuts = st.active_shortcuts := by
  unfold check_combination_release; split <;> try rfl
  split <;> try rfl
  split <;> rfl

theorem check_combination_release_press_inv (t : ℚ) (w : Finset String) (st : GS)
    (sc : Shortcut) :
    (check_combination_release t w st sc).press_invocations = st.press_invocations := by
  unfold check_combination_release; split <;> try rfl
  split <;> try rfl
  split <;> rfl

theorem check_combination_release_shortcuts (t : ℚ) (w : Finset String) (st : GS)
    (sc : Shortcut) :
    (check_combination_release t w st sc).shortcuts = st.shortcuts := by
  unfold check_combination_release; split <;> try rfl
  split <;> try rfl
  split <;> rfl

theorem foldl_release_pressed (t : ℚ) (w : Finset String) :
    ∀ (l : List Shortcut) (st : GS),
      (l.foldl (check_combination_release t w) st).pressed_keys = st.pressed_keys
  | [], _ => rfl
  | sc :: l, st => by
    rw [List.foldl_cons, foldl_release_pressed t w l, check_combination_release_pressed]

theorem foldl_release_suppressed (t : ℚ) (w : Finset String) :
    ∀ (l : List Shortcut) (st : GS),
      (l.foldl (check_combination_release t w) st).suppressed_keys = st.suppressed_keys
  | [], _ => rfl
  | sc :: l, st => by
    rw [List.foldl_cons, foldl_release_suppressed t w l, check_combination_release_suppressed]

theorem foldl_release_active (t : ℚ) (w : Finset String) :
    ∀ (l : List Shortcut) (st : GS),
      (l.foldl (check_combination_release t w) st).active_shortcuts = st.active_shortcuts
  | [], _ => rfl
  | sc :: l, st => by
    rw [List.foldl_cons, foldl_release_active t w l, check_combination_release_active]

/-! ### The key-down suppression scan -/

/-- The per-shortcut hit condition of the suppression scan: the key
completes this shortcut with no extra modifiers pressed. -/
def scan_hit (pressed : Finset Nat) (code : Nat) (sc : Shortcut) : Prop :=
  code ∈ sc.target_keys ∧ sc.target_keys ⊆ pressed ∧
    ((pressed \ sc.target_keys) ∩ MODIFIER_KEYS) = ∅

instance (pressed : Finset Nat) (code : Nat) (sc : Shortcut) :
    Decidable (scan_hit pressed code sc) := by unfold scan_hit; infer_instance

theorem key_down_scan_eq (pressed : Finset Nat) (code : Nat) :
    ∀ (l : List Shortcut) (b : Bool) (s : Finset Nat),
      key_down_scan l pressed code (b, s) =
        if (∃ sc ∈ l, scan_hit pressed code sc) ∧ code ∉ MODIFIER_KEYS then
          (true, insert code s)
        else (b, s)
  | [], b, s => by simp [key_down_scan]
  | sc :: l, b, s => by
    have ih := key_down_scan_eq pressed code l
    unfold key_down_scan at ih ⊢
    rw [List.foldl_cons]
    by_cases hmod : code ∈ MODIFIER_KEYS
    · -- a modifier key never updates the accumulator
      by_cases h1 : code ∈ sc.target_keys ∧ sc.target_keys ⊆ pressed
      · by_cases h2 : ((pressed \ sc.target_keys) ∩ MODIFIER_KEYS) = ∅
        · rw [if_pos h1, if_pos h2, if_neg (by simp [hmod]), ih,
            if_neg (by simp [hmod]), if_neg (by simp [hmod])]
        · rw [if_pos h1, if_neg h2, ih, if_neg (by simp [hmod]), if_neg (by simp [hmod])]
      · rw [if_neg h1, ih, if_neg (by simp [hmod]), if_neg (by simp [hmod])]
    · by_cases hhit : scan_hit pressed code sc
      · obtain ⟨ha, hb, hc⟩ := hhit
        rw [if_pos ⟨ha, hb⟩, if_pos hc, if_pos hmod, ih]
        by_cases hrest : ∃ u ∈ l, scan_hit pressed code u
        · rw [if_pos ⟨hrest, hmod⟩, if_pos ⟨⟨sc, List.mem_cons_self sc l, ha, hb, hc⟩, hmod⟩,
            Finset.insert_idem]
        · rw [if_neg (by simp [hrest]), if_pos ⟨⟨sc, List.mem_cons_self sc l, ha, hb, hc⟩, hmod⟩]
      · have hstep :
            (if code ∈ sc.target_keys ∧ sc.target_keys ⊆ pressed then
              if ((pressed \ sc.target_keys) ∩ MODIFIER_KEYS) = ∅ then
                if code ∉ MODIFIER_KEYS then (true, insert code s) else (b, s)
              else (b, s)
            else (b, s)) = (b, s) := by
          by_cases h1 : code ∈ sc.target_keys ∧ sc.target_keys ⊆ pressed
          · by_cases h2 : ((pressed \ sc.target_keys) ∩ MODIFIER_KEYS) = ∅
            · exact absurd ⟨h1.1, h1.2, h2⟩ hhit
            · rw [if_pos h1, if_neg h2]
          · rw [if_neg h1]
        rw [hstep, ih]
        by_cases hrest : ∃ u ∈ l, scan_hit pressed code u
        · obtain ⟨u, hu, hsu⟩ := hrest
          rw [if_pos ⟨⟨u, hu, hsu⟩, hmod⟩,
            if_pos ⟨⟨u, List.mem_cons_of_mem sc hu, hsu⟩, hmod⟩]
        · rw [if_neg (by simp [hrest]),
            if_neg (by
              rintro ⟨⟨u, hu, hsu⟩, -⟩
              rcases List.mem_cons.mp hu with h | h
              · exact hhit (h ▸ hsu)
              · exact hrest ⟨u, h, hsu⟩)]

/-! ### Shapes of process_event in each keystate -/

theorem process_event_down (st : GS) (c : Nat) (t : ℚ) :
    process_event st ⟨1, c, 1, t⟩ =
      (check_all_shortcut_combinations t
        { st with
          pressed_keys := insert c st.pressed_keys
          suppressed_keys :=
            (key_down_scan st.shortcuts (insert c st.pressed_keys) c
              (false, st.suppressed_keys)).2 },
       (key_down_scan st.shortcuts (insert c st.pressed_keys) c
         (false, st.suppressed_keys)).1) := rfl

theorem process_event_up (st : GS) (c : Nat) (t : ℚ) :
    process_event st ⟨1, c, 0, t⟩ =
      (check_all_combinations_release t st.active_shortcuts
        (if c ∈ st.suppressed_keys then
          { st with
            pressed_keys := st.pressed_keys.erase c
            suppressed_keys := st.suppressed_keys.erase c }
         else { st with pressed_keys := st.pressed_keys.erase c }),
       if c ∈ st.suppressed_keys then decide (c ∉ MODIFIER_KEYS) else false) := rfl

theorem process_event_repeat (st : GS) (c : Nat) (t : ℚ) :
    process_event st ⟨1, c, 2, t⟩ = (st, decide (c ∈ st.suppressed_keys)) := rfl

theorem process_events_nil (st : GS) : process_events st [] = st := rfl

theorem process_events_cons (st : GS) (e : KeyEvent) (es : List KeyEvent) :
    process_events st (e :: es) = process_events (process_event st e).1 es := rfl

/-! ### Degenerate event shapes -/

theorem process_event_other (st : GS) (e : KeyEvent)
    (h : e.etype ≠ 1 ∨ (e.value ≠ 0 ∧ e.value ≠ 1 ∧ e.value ≠ 2)) :
    process_event st e = (st, false) := by
  rcases e with ⟨et, c, v, t⟩
  unfold process_event
  by_cases het : et = 1
  · rcases h with h | ⟨h0, h1, h2⟩
    · exact absurd het h
    · simp only at h0 h1 h2
      rw [if_pos het, if_neg h1, if_neg h0, if_neg h2]
  · rw [if_neg het]

/-! ### Single-step invariants for suppression -/

theorem suppressed_subset_step (st : GS) (e : KeyEvent)
    (h : st.suppressed_keys ⊆ st.pressed_keys) :
    (process_event st e).1.suppressed_keys ⊆ (process_event st e).1.pressed_keys := by
  rcases e with ⟨et, c, v, t⟩
  by_cases het : et = 1
  · subst het
    by_cases hv1 : v = 1
    · subst hv1
      rw [process_event_down]
      show (check_all_shortcut_combinations t _).suppressed_keys ⊆
        (check_all_shortcut_combinations t _).pressed_keys
      unfold check_all_shortcut_combinations
      rw [foldl_check_shortcut_pressed, foldl_check_shortcut_suppressed]
      show (key_down_scan st.shortcuts (insert c st.pressed_keys) c
        (false, st.suppressed_keys)).2 ⊆ insert c st.pressed_keys
      rw [key_down_scan_eq]
      split
      · exact Finset.insert_subset_insert c h
      · exact h.trans (Finset.subset_insert c st.pressed_keys)
    · by_cases hv0 : v = 0
      · subst hv0
        rw [process_event_up]
        show (check_all_combinations_release t _ _).suppressed_keys ⊆
          (check_all_combinations_release t _ _).pressed_keys
        unfold check_all_combinations_release
        by_cases hc : c ∈ st.suppressed_keys
        · rw [if_pos hc, foldl_release_pressed, foldl_release_suppressed]
          exact Finset.erase_subset_erase c h
        · rw [if_neg hc, foldl_release_pressed, foldl_release_suppressed]
          show st.suppressed_keys ⊆ st.pressed_keys.erase c
          intro x hx
          exact Finset.mem_erase.mpr ⟨fun hxc => hc (hxc ▸ hx), h hx⟩
      · by_cases hv2 : v = 2
        · subst hv2
          rw [process_event_repeat]
          exact h
        · rw [process_event_other st _ (Or.inr ⟨hv0, hv1, hv2⟩)]
          exact h
  · rw [process_event_other st _ (Or.inl het)]
    exact h

theorem suppressed_subset_trace (es : List KeyEvent) :
    ∀ (st : GS), st.suppressed_keys ⊆ st.pressed_keys →
      (process_events st es).suppressed_keys ⊆ (process_events st es).pressed_keys := by
  induction es with
  | nil => exact fun st h => h
  | cons e es ih =>
    intro st h
    rw [process_events_cons]
    exact ih _ (suppressed_subset_step st e h)

theorem key_down_keeps_suppressed (st : GS) (c k : Nat) (t : ℚ)
    (hk : k ∈ st.suppressed_keys) :
    k ∈ (process_event st ⟨1, c, 1, t⟩).1.suppressed_keys := by
  rw [process_event_down]
  show k ∈ (check_all_shortcut_combinations t _).suppressed_keys
  unfold check_all_shortcut_combinations
  rw [foldl_check_shortcut_suppressed]
  show k ∈ (key_down_scan st.shortcuts (insert c st.pressed_keys) c
    (false, st.suppressed_keys)).2
  rw [key_down_scan_eq]
  split
  · exact Finset.mem_insert_of_mem hk
  · exact hk

theorem suppressed_removal (st : GS) (e : KeyEvent) (c : Nat)
    (hc : c ∈ st.suppressed_keys) (hc2 : c ∉ (process_event st e).1.suppressed_keys) :
    e.etype = 1 ∧ e.value = 0 ∧ e.code = c := by
  rcases e with ⟨et, k, v, t⟩
  by_cases het : et = 1
  · subst het
    by_cases hv1 : v = 1
    · exact absurd (hv1 ▸ key_down_keeps_suppressed st k c t hc) (hv1 ▸ hc2)
    · by_cases hv0 : v = 0
      · subst hv0
        refine ⟨rfl, rfl, ?_⟩
        by_contra hkc
        apply hc2
        rw [process_event_up]
        show c ∈ (check_all_combinations_release t _ _).suppressed_keys
        unfold check_all_combinations_release
        split
        · rw [foldl_release_suppressed]
          exact Finset.mem_erase.mpr ⟨fun h => hkc h.symm, hc⟩
        · rw [foldl_release_suppressed]
          exact hc
      · by_cases hv2 : v = 2
        · subst hv2
          rw [process_event_repeat] at hc2
          exact absurd hc hc2
        · rw [process_event_other st _ (Or.inr ⟨hv0, hv1, hv2⟩)] at hc2
          exact absurd hc hc2
  · rw [process_event_other st _ (Or.inl het)] at hc2
    exact absurd hc hc2

theorem key_up_clears_suppressed (st : GS) (c : Nat) (t : ℚ)
    (hc : c ∈ st.suppressed_keys) :
    (process_event st ⟨1, c, 0, t⟩).1.suppressed_keys = st.suppressed_keys.erase c := by
  rw [process_event_up]
  show (check_all_combinations_release t _ _).suppressed_keys = _
  unfold check_all_combinations_release
  rw [if_pos hc, foldl_release_suppressed]

theorem stop_clears_suppressed (st : GS) (h : st.is_running = true) :
    (stop st).suppressed_keys = ∅ := by
  unfold stop cleanup_key_grabbing
  rw [if_neg (by rw [h]; exact fun hn => hn rfl)]

/-! ### Single-step invariants for modifier safety -/

theorem suppressed_modifier_step (st : GS) (e : KeyEvent)
    (h : st.suppressed_keys ∩ MODIFIER_KEYS = ∅) :
    (process_event st e).1.suppressed_keys ∩ MODIFIER_KEYS = ∅ := by
  rcases e with ⟨et, c, v, t⟩
  by_cases het : et = 1
  · subst het
    by_cases hv1 : v = 1
    · subst hv1
      rw [process_event_down]
      show (check_all_shortcut_combinations t _).suppressed_keys ∩ MODIFIER_KEYS = ∅
      unfold check_all_shortcut_combinations
      rw [foldl_check_shortcut_suppressed]
      show (key_down_scan st.shortcuts (insert c st.pressed_keys) c
        (false, st.suppressed_keys)).2 ∩ MODIFIER_KEYS = ∅
      rw [key_down_scan_eq]
      split
      · next hcond =>
        rw [Finset.insert_inter_of_not_mem hcond.2]
        exact h
      · exact h
    · by_cases hv0 : v = 0
      · subst hv0
        rw [process_event_up]
        show (check_all_combinations_release t _ _).suppressed_keys ∩ MODIFIER_KEYS = ∅
        unfold check_all_combinations_release
        split
        · rw [foldl_release_suppressed]
          refine Finset.subset_empty.mp ?_
          calc st.suppressed_keys.erase c ∩ MODIFIER_KEYS
              ⊆ st.suppressed_keys ∩ MODIFIER_KEYS :=
                Finset.inter_subset_inter (Finset.erase_subset c st.suppressed_keys)
                  (Finset.Subset.refl _)
            _ = ∅ := h
        · rw [foldl_release_suppressed]
          exact h
      · by_cases hv2 : v = 2
        · subst hv2
          rw [process_event_repeat]
          exact h
        · rw [process_event_other st _ (Or.inr ⟨hv0, hv1, hv2⟩)]
          exact h
  · rw [process_event_other st _ (Or.inl het)]
    exact h

theorem suppressed_modifier_trace (es : List KeyEvent) :
    ∀ (st : GS), st.suppressed_keys ∩ MODIFIER_KEYS = ∅ →
      (process_events st es).suppressed_keys ∩ MODIFIER_KEYS = ∅ := by
  induction es with
  | nil => exact fun st h => h
  | cons e es ih =>
    intro st h
    rw [process_events_cons]
    exact ih _ (suppressed_modifier_step st e h)

theorem modifier_release_passes (st : GS) (c : Nat) (t : ℚ) (h : c ∈ MODIFIER_KEYS) :
    (process_event st ⟨1, c, 0, t⟩).2 = false := by
  rw [process_event_up]
  split
  · simp [h]
  · rfl

/-! ### Timestamp-map lemmas -/

theorem dict_get_set_self (m : List (String × ℚ)) (k : String) (v : ℚ) :
    dict_get (dict_set m k v) k = v := by
  unfold dict_get dict_set
  rw [List.find?_cons_of_pos _ (by simp)]

theorem find?_filter_other (x k : String) (h : x ≠ k) :
    ∀ (m : List (String × ℚ)),
      List.find? (fun p => p.1.data == x.data)
        (m.filter (fun p => !(p.1.data == k.data))) =
      List.find? (fun p => p.1.data == x.data) m
  | [] => rfl
  | (a, b) :: m => by
    rw [List.filter_cons]
    by_cases hk : (a.data == k.data) = true
    · have hax : (a.data == x.data) = false := by
        refine beq_eq_false_iff_ne.mpr fun hd => h ?_
        have : a = k := String.ext (eq_of_beq hk)
        exact String.ext (by rw [← hd, this])
      rw [if_neg (by simp [hk]), find?_filter_other x k h m,
        List.find?_cons_of_neg _ (by simp [hax])]
    · rw [if_pos (by simp [hk])]
      by_cases hax : (a.data == x.data) = true
      · rw [List.find?_cons_of_pos _ (by simpa using hax),
          List.find?_cons_of_pos _ (by simpa using hax)]
      · rw [List.find?_cons_of_neg _ (by simpa using hax),
          List.find?_cons_of_neg _ (by simpa using hax), find?_filter_other x k h m]

theorem dict_get_set_other (m : List (String × ℚ)) (k x : String) (v : ℚ) (h : x ≠ k) :
    dict_get (dict_set m k v) x = dict_get m x := by
  unfold dict_get dict_set
  rw [List.find?_cons_of_neg _ (by
    simp only [Bool.not_eq_true]
    refine beq_eq_false_iff_ne.mpr fun hd => h (String.ext hd.symm)), find?_filter_other x k h m]

/-! ### What one checking step does to the active set -/

theorem check_shortcut_active_self (t : ℚ) (st : GS) (sc : Shortcut) :
    sc.id ∈ (check_shortcut t st sc).active_shortcuts ↔
      (is_match st.pressed_keys sc = true ∧
        (sc.id ∈ st.active_shortcuts ∨
          t - dict_get st.last_trigger_times sc.id > debounce_time)) := by
  unfold check_shortcut
  by_cases hm : is_match st.pressed_keys sc = true
  · rw [if_pos hm]
    by_cases hcond : sc.id ∉ st.active_shortcuts ∧
        t - dict_get st.last_trigger_times sc.id > debounce_time
    · rw [if_pos hcond]
      simp [hm, hcond.2]
    · rw [if_neg hcond]
      constructor
      · exact fun hmem => ⟨hm, Or.inl hmem⟩
      · rintro ⟨-, hmem | hdb⟩
        · exact hmem
        · by_contra hnot
          exact hcond ⟨hnot, hdb⟩
  · rw [if_neg hm]
    constructor
    · intro hmem
      split at hmem
      · exact absurd (Finset.mem_erase.mp hmem).1 (by simp)
      · next hna => exact absurd hmem hna
    · rintro ⟨hm2, -⟩
      exact absurd hm2 hm

theorem check_shortcut_active_other (t : ℚ) (st : GS) (sc : Shortcut) (x : String)
    (h : x ≠ sc.id) :
    (x ∈ (check_shortcut t st sc).active_shortcuts ↔ x ∈ st.active_shortcuts) := by
  unfold check_shortcut
  split_ifs <;> simp [h]

theorem check_shortcut_lt_other (t : ℚ) (st : GS) (sc : Shortcut) (x : String)
    (h : x ≠ sc.id) :
    dict_get (check_shortcut t st sc).last_trigger_times x =
      dict_get st.last_trigger_times x := by
  unfold check_shortcut
  split_ifs <;> first
    | rfl
    | exact dict_get_set_other st.last_trigger_times sc.id x t h

theorem foldl_check_active_other (t : ℚ) :
    ∀ (l : List Shortcut) (st : GS) (x : String), (∀ u ∈ l, u.id ≠ x) →
      (x ∈ (l.foldl (check_shortcut t) st).active_shortcuts ↔ x ∈ st.active_shortcuts)
  | [], _, _, _ => Iff.rfl
  | u :: l, st, x, h => by
    rw [List.foldl_cons]
    rw [foldl_check_active_other t l _ x (fun v hv => h v (List.mem_cons_of_mem u hv))]
    exact check_shortcut_active_other t st u x (fun hx => h u (List.mem_cons_self u l) hx.symm)

theorem foldl_check_active_mem (t : ℚ) :
    ∀ (l : List Shortcut) (st : GS) (sc : Shortcut),
      sc ∈ l → l.Pairwise (fun a b => a.id ≠ b.id) →
      (sc.id ∈ (l.foldl (check_shortcut t) st).active_shortcuts ↔
        (is_match st.pressed_keys sc = true ∧
          (sc.id ∈ st.active_shortcuts ∨
            t - dict_get st.last_trigger_times sc.id > debounce_time)))
  | [], _, sc, hmem, _ => absurd hmem (List.not_mem_nil sc)
  | u :: l, st, sc, hmem, hpw => by
    rw [List.foldl_cons]
    rcases List.mem_cons.mp hmem with rfl | htail
    · have hids := (List.pairwise_cons.mp hpw).1
      rw [foldl_check_active_other t l _ sc.id (fun v hv => (hids v hv).symm)]
      exact check_shortcut_active_self t st sc
    · have hne : sc.id ≠ u.id := fun h => ((List.pairwise_cons.mp hpw).1 sc htail) h.symm
      rw [foldl_check_active_mem t l _ sc htail (List.pairwise_cons.mp hpw).2,
        check_shortcut_pressed, check_shortcut_active_other t st u sc.id hne,
        check_shortcut_lt_other t st u sc.id hne]

/-! ### The three behaviours of the active set -/

theorem active_unchanged_nondown (st : GS) (e : KeyEvent) (h : e.value ≠ 1) :
    (process_event st e).1.active_shortcuts = st.active_shortcuts := by
  rcases e with ⟨et, c, v, t⟩
  simp only at h
  by_cases het : et = 1
  · subst het
    by_cases hv0 : v = 0
    · subst hv0
      rw [process_event_up]
      show (check_all_combinations_release t _ _).active_shortcuts = _
      unfold check_all_combinations_release
      split <;> rw [foldl_release_active]
    · by_cases hv2 : v = 2
      · subst hv2
        rw [process_event_repeat]
      · rw [process_event_other st _ (Or.inr ⟨hv0, h, hv2⟩)]
  · rw [process_event_other st _ (Or.inl het)]

theorem down_active_mem (st : GS) (sc : Shortcut) (c : Nat) (t : ℚ)
    (hpw : st.shortcuts.Pairwise (fun a b => a.id ≠ b.id)) (hmem : sc ∈ st.shortcuts) :
    (sc.id ∈ (process_event st ⟨1, c, 1, t⟩).1.active_shortcuts ↔
      (is_match (insert c st.pressed_keys) sc = true ∧
        (sc.id ∈ st.active_shortcuts ∨
          t - dict_get st.last_trigger_times sc.id > debounce_time))) := by
  rw [process_event_down]
  exact foldl_check_active_mem t st.shortcuts _ sc hmem hpw

theorem up_release_dispatch (st : GS) (sc : Shortcut) (c : Nat) (t : ℚ)
    (hsc : st.shortcuts = [sc]) (ha : sc.id ∈ st.active_shortcuts)
    (hb : ¬ sc.target_keys ⊆ st.pressed_keys.erase c)
    (hd : t - dict_get st.last_release_times sc.id > debounce_time) :
    ((process_event st ⟨1, c, 0, t⟩).1.release_invocations =
      (if sc.has_release_callback then sc.id :: st.release_invocations
       else st.release_invocations))
  ∧ (process_event st ⟨1, c, 0, t⟩).1.active_shortcuts = st.active_shortcuts := by
  rw [process_event_up]
  unfold check_all_combinations_release
  refine ⟨?_, by split <;> rw [foldl_release_active]⟩
  have key : ∀ (S : GS), S.shortcuts = [sc] →
      S.pressed_keys = st.pressed_keys.erase c →
      S.last_release_times = st.last_release_times →
      S.release_invocations = st.release_invocations →
      (List.foldl (check_combination_release t st.active_shortcuts) S
          S.shortcuts).release_invocations =
        (if sc.has_release_callback then sc.id :: st.release_invocations
         else st.release_invocations) := by
    intro S h1 h2 h3 h4
    rw [h1, List.foldl_cons, List.foldl_nil]
    unfold check_combination_release
    rw [if_pos ha, if_pos (show ¬ sc.target_keys ⊆ S.pressed_keys by rw [h2]; exact hb),
      if_pos (show t - dict_get S.last_release_times sc.id > debounce_time by
        rw [h3]; exact hd)]
    show (if sc.has_release_callback then sc.id :: S.release_invocations
      else S.release_invocations) = _
    rw [h4]
  split
  · exact key _ hsc rfl rfl rfl
  · exact key _ hsc rfl rfl rfl
/-! ### Structure extensionality -/

theorem gs_ext {a b : GS}
    (h1 : a.selected_device_path = b.selected_device_path)
    (h2 : a.grab_keys = b.grab_keys)
    (h3 : a.devices = b.devices)
    (h4 : a.is_running = b.is_running)
    (h5 : a.uinput = b.uinput)
    (h6 : a.devices_grabbed = b.devices_grabbed)
    (h7 : a.pressed_keys = b.pressed_keys)
    (h8 : a.last_trigger_times = b.last_trigger_times)
    (h9 : a.last_release_times = b.last_release_times)
    (h10 : a.active_shortcuts = b.active_shortcuts)
    (h11 : a.suppressed_keys = b.suppressed_keys)
    (h12 : a.shortcuts = b.shortcuts)
    (h13 : a.all_required_keys = b.all_required_keys)
    (h14 : a.press_invocations = b.press_invocations)
    (h15 : a.release_invocations = b.release_invocations) :
    a = b := by
  cases a; cases b
  rw [GS.mk.injEq]
  exact ⟨h1, h2, h3, h4, h5, h6, h7, h8, h9, h10, h11, h12, h13, h14, h15⟩

/-! ### One-shortcut engines: exact single-step behaviour -/

theorem scan_hit_iff_is_match (pressed : Finset Nat) (c : Nat) (sc : Shortcut) :
    scan_hit pressed c sc ↔ (c ∈ sc.target_keys ∧ is_match pressed sc = true) := by
  unfold scan_hit is_match
  constructor
  · rintro ⟨h1, h2, h3⟩
    refine ⟨h1, ?_⟩
    rw [if_neg (not_not_intro h2)]
    exact decide_eq_true h3
  · rintro ⟨h1, h2⟩
    by_cases hsub : sc.target_keys ⊆ pressed
    · rw [if_neg (not_not_intro hsub)] at h2
      exact ⟨h1, hsub, of_decide_eq_true h2⟩
    · rw [if_pos hsub] at h2
      exact absurd h2 (by decide)

theorem key_down_scan_single (sc : Shortcut) (pressed : Finset Nat) (c : Nat)
    (s : Finset Nat) :
    key_down_scan [sc] pressed c (false, s) =
      if scan_hit pressed c sc ∧ c ∉ MODIFIER_KEYS then (true, insert c s)
      else (false, s) := by
  rw [key_down_scan_eq]
  simp only [List.mem_singleton, exists_eq_left]

theorem check_all_single_nomatch (t : ℚ) (st : GS) (sc : Shortcut)
    (hsc : st.shortcuts = [sc]) (hm : is_match st.pressed_keys sc = false)
    (ha : sc.id ∉ st.active_shortcuts) :
    check_all_shortcut_combinations t st = st := by
  unfold check_all_shortcut_combinations
  rw [hsc, List.foldl_cons, List.foldl_nil]
  unfold check_shortcut
  rw [if_neg (by rw [hm]; exact Bool.false_ne_true), if_neg ha]

theorem check_all_single_fire (t : ℚ) (st : GS) (sc : Shortcut)
    (hsc : st.shortcuts = [sc]) (hm : is_match st.pressed_keys sc = true)
    (ha : sc.id ∉ st.active_shortcuts)
    (hd : t - dict_get st.last_trigger_times sc.id > debounce_time) :
    check_all_shortcut_combinations t st =
      { st with
        last_trigger_times := dict_set st.last_trigger_times sc.id t
        active_shortcuts := insert sc.id st.active_shortcuts
        press_invocations := if sc.has_callback then sc.id :: st.press_invocations
          else st.press_invocations } := by
  unfold check_all_shortcut_combinations
  rw [hsc, List.foldl_cons, List.foldl_nil]
  unfold check_shortcut
  rw [if_pos hm, if_pos ⟨ha, hd⟩, hsc]

theorem check_all_single_skip (t : ℚ) (st : GS) (sc : Shortcut)
    (hsc : st.shortcuts = [sc]) (hm : is_match st.pressed_keys sc = true)
    (hcond : ¬ (sc.id ∉ st.active_shortcuts ∧
      t - dict_get st.last_trigger_times sc.id > debounce_time)) :
    check_all_shortcut_combinations t st = st := by
  unfold check_all_shortcut_combinations
  rw [hsc, List.foldl_cons, List.foldl_nil]
  unfold check_shortcut
  rw [if_pos hm, if_neg hcond]

theorem down_single_nomatch (st : GS) (sc : Shortcut) (c : Nat) (t : ℚ)
    (hsc : st.shortcuts = [sc])
    (hm : is_match (insert c st.pressed_keys) sc = false)
    (ha : sc.id ∉ st.active_shortcuts) :
    process_event st ⟨1, c, 1, t⟩ =
      ({ st with pressed_keys := insert c st.pressed_keys }, false) := by
  rw [process_event_down]
  have h1 : key_down_scan st.shortcuts (insert c st.pressed_keys) c
      (false, st.suppressed_keys) = (false, st.suppressed_keys) := by
    rw [hsc, key_down_scan_single, if_neg]
    rintro ⟨hhit, -⟩
    exact absurd ((scan_hit_iff_is_match _ _ _).mp hhit).2 (by rw [hm]; decide)
  rw [h1]
  have hca := check_all_single_nomatch t
    ({ st with
        pressed_keys := insert c st.pressed_keys
        suppressed_keys := ((false, st.suppressed_keys) : Bool × Finset Nat).2 }) sc hsc hm ha
  rw [hca]

theorem down_single_fire (st : GS) (sc : Shortcut) (c : Nat) (t : ℚ)
    (hsc : st.shortcuts = [sc])
    (hm : is_match (insert c st.pressed_keys) sc = true)
    (ha : sc.id ∉ st.active_shortcuts)
    (hd : t - dict_get st.last_trigger_times sc.id > debounce_time) :
    process_event st ⟨1, c, 1, t⟩ =
      ({ st with
          pressed_keys := insert c st.pressed_keys
          suppressed_keys := if c ∈ sc.target_keys ∧ c ∉ MODIFIER_KEYS
            then insert c st.suppressed_keys else st.suppressed_keys
          last_trigger_times := dict_set st.last_trigger_times sc.id t
          active_shortcuts := insert sc.id st.active_shortcuts
          press_invocations := if sc.has_callback then sc.id :: st.press_invocations
            else st.press_invocations },
       decide (c ∈ sc.target_keys ∧ c ∉ MODIFIER_KEYS)) := by
  rw [process_event_down]
  have h1 : key_down_scan st.shortcuts (insert c st.pressed_keys) c
      (false, st.suppressed_keys) =
      (if c ∈ sc.target_keys ∧ c ∉ MODIFIER_KEYS
       then (true, insert c st.suppressed_keys) else (false, st.suppressed_keys)) := by
    rw [hsc, key_down_scan_single]
    refine if_congr ?_ rfl rfl
    rw [scan_hit_iff_is_match]
    simp [hm]
  rw [h1]
  by_cases hcm : c ∈ sc.target_keys ∧ c ∉ MODIFIER_KEYS
  · rw [if_pos hcm, if_pos hcm, decide_eq_true hcm]
    have hca := check_all_single_fire t
      ({ st with
          pressed_keys := insert c st.pressed_keys
          suppressed_keys := ((true, insert c st.suppressed_keys) : Bool × Finset Nat).2 })
        sc hsc hm ha hd
    rw [hca]
  · rw [if_neg hcm, if_neg hcm, decide_eq_false hcm]
    have hca := check_all_single_fire t
      ({ st with
          pressed_keys := insert c st.pressed_keys
          suppressed_keys := ((false, st.suppressed_keys) : Bool × Finset Nat).2 })
        sc hsc hm ha hd
    rw [hca]

theorem down_single_skip (st : GS) (sc : Shortcut) (c : Nat) (t : ℚ)
    (hsc : st.shortcuts = [sc])
    (hm : is_match (insert c st.pressed_keys) sc = true)
    (hcond : ¬ (sc.id ∉ st.active_shortcuts ∧
      t - dict_get st.last_trigger_times sc.id > debounce_time)) :
    process_event st ⟨1, c, 1, t⟩ =
      ({ st with
          pressed_keys := insert c st.pressed_keys
          suppressed_keys := if c ∈ sc.target_keys ∧ c ∉ MODIFIER_KEYS
            then insert c st.suppressed_keys else st.suppressed_keys },
       decide (c ∈ sc.target_keys ∧ c ∉ MODIFIER_KEYS)) := by
  rw [process_event_down]
  have h1 : key_down_scan st.shortcuts (insert c st.pressed_keys) c
      (false, st.suppressed_keys) =
      (if c ∈ sc.target_keys ∧ c ∉ MODIFIER_KEYS
       then (true, insert c st.suppressed_keys) else (false, st.suppressed_keys)) := by
    rw [hsc, key_down_scan_single]
    refine if_congr ?_ rfl rfl
    rw [scan_hit_iff_is_match]
    simp [hm]
  rw [h1]
  by_cases hcm : c ∈ sc.target_keys ∧ c ∉ MODIFIER_KEYS
  · rw [if_pos hcm, if_pos hcm, decide_eq_true hcm]
    have hca := check_all_single_skip t
      ({ st with
          pressed_keys := insert c st.pressed_keys
          suppressed_keys := ((true, insert c st.suppressed_keys) : Bool × Finset Nat).2 })
        sc hsc hm hcond
    rw [hca]
  · rw [if_neg hcm, if_neg hcm, decide_eq_false hcm]
    have hca := check_all_single_skip t
      ({ st with
          pressed_keys := insert c st.pressed_keys
          suppressed_keys := ((false, st.suppressed_keys) : Bool × Finset Nat).2 })
        sc hsc hm hcond
    rw [hca]

theorem foldl_check_shortcut_shortcuts (t : ℚ) :
    ∀ (l : List Shortcut) (st : GS),
      (l.foldl (check_shortcut t) st).shortcuts = st.shortcuts
  | [], _ => rfl
  | sc :: l, st => by
    rw [List.foldl_cons, foldl_check_shortcut_shortcuts t l, check_shortcut_shortcuts]

theorem foldl_release_shortcuts (t : ℚ) (w : Finset String) :
    ∀ (l : List Shortcut) (st : GS),
      (l.foldl (check_combination_release t w) st).shortcuts = st.shortcuts
  | [], _ => rfl
  | sc :: l, st => by
    rw [List.foldl_cons, foldl_release_shortcuts t w l, check_combination_release_shortcuts]

theorem process_event_shortcuts (st : GS) (e : KeyEvent) :
    (process_event st e).1.shortcuts = st.shortcuts := by
  rcases e with ⟨et, c, v, t⟩
  by_cases het : et = 1
  · subst het
    by_cases hv1 : v = 1
    · subst hv1
      rw [process_event_down]
      show (check_all_shortcut_combinations t _).shortcuts = _
      unfold check_all_shortcut_combinations
      rw [foldl_check_shortcut_shortcuts]
    · by_cases hv0 : v = 0
      · subst hv0
        rw [process_event_up]
        show (check_all_combinations_release t _ _).shortcuts = _
        unfold check_all_combinations_release
        split <;> rw [foldl_release_shortcuts]
      · by_cases hv2 : v = 2
        · subst hv2
          rw [process_event_repeat]
        · rw [process_event_other st _ (Or.inr ⟨hv0, hv1, hv2⟩)]
  · rw [process_event_other st _ (Or.inl het)]

theorem process_events_shortcuts :
    ∀ (es : List KeyEvent) (st : GS), (process_events st es).shortcuts = st.shortcuts
  | [], _ => rfl
  | e :: es, st => by
    rw [process_events_cons, process_events_shortcuts es, process_event_shortcuts]

/-! ### Parser lemmas -/

theorem resolve_parts_none (ec : String → Option Nat) :
    ∀ (parts : List String),
      (∃ p ∈ parts, string_to_keycode ec (PyStr.strip p) = none) →
      resolve_parts ec parts = none
  | [], h => absurd h (by simp)
  | p :: rest, h => by
    rcases h with ⟨q, hq, hnone⟩
    rcases List.mem_cons.mp hq with rfl | hmem
    · simp only [resolve_parts, hnone]
    · cases hsk : string_to_keycode ec (PyStr.strip p) with
      | none => simp only [resolve_parts, hsk]
      | some k =>
        simp only [resolve_parts, hsk, resolve_parts_none ec rest ⟨q, hmem, hnone⟩,
          Option.map_none']

theorem string_to_keycode_standalone_eq (ec : String → Option Nat) (s : String) :
    string_to_keycode_standalone ec s = string_to_keycode ec s := rfl

theorem resolve_parts_agree (ec : String → Option Nat) :
    ∀ (parts : List String) (keys : Finset Nat),
      resolve_parts ec parts = some keys → resolve_parts_standalone ec parts = keys
  | [], keys, h => by
    simp only [resolve_parts, Option.some.injEq] at h
    simp only [resolve_parts_standalone, h]
  | p :: rest, keys, h => by
    unfold resolve_parts_standalone
    rw [string_to_keycode_standalone_eq]
    cases hsk : string_to_keycode ec (PyStr.strip p) with
    | none =>
      simp only [resolve_parts, hsk] at h
      exact absurd h (by simp)
    | some k =>
      simp only [resolve_parts, hsk] at h
      obtain ⟨ks, hks, hkeys⟩ := Option.map_eq_some'.mp h
      rw [resolve_parts_agree ec rest ks hks]
      exact hkeys

/-! ### Cleanup and stop behaviour -/

theorem cleanup_flags (st : GS) :
    (cleanup_key_grabbing st).devices_grabbed = false
  ∧ (cleanup_key_grabbing st).uinput = false := by
  unfold cleanup_key_grabbing
  split <;> split <;> constructor <;> simp_all

theorem cleanup_frame (st : GS) :
    (cleanup_key_grabbing st).active_shortcuts = st.active_shortcuts
  ∧ (cleanup_key_grabbing st).last_trigger_times = st.last_trigger_times
  ∧ (cleanup_key_grabbing st).last_release_times = st.last_release_times := by
  unfold cleanup_key_grabbing
  split <;> split <;> exact ⟨rfl, rfl, rfl⟩

end GlobalShortcuts

open GlobalShortcuts

/-! ### Concrete fixtures used by witnesses and counterexamples -/

/-- The shortcut registered for the combination ctrl+d
(KEY_LEFTCTRL = 29, KEY_D = 32), as add_shortcut would build it. -/
def ctrlD : Shortcut := ⟨"ctrl+d_0", {29, 32}, true, true⟩

/-- The shortcut registered for ctrl+alt+d (29, 56, 32). -/
def ctrlAltD : Shortcut := ⟨"ctrl+alt+d_0", {29, 56, 32}, true, true⟩

/-- A single-key shortcut for f9 (KEY_F9 = 67). -/
def f9sc : Shortcut := ⟨"f9_0", {67}, true, true⟩

/-- A running engine with ctrl+d registered, currently held and matched:
ctrl and d pressed, d suppressed, the shortcut active since time 1. -/
def exEngaged : GS :=
  { init none true with
    shortcuts := [ctrlD]
    pressed_keys := {29, 32}
    suppressed_keys := {32}
    active_shortcuts := {"ctrl+d_0"}
    last_trigger_times := [("ctrl+d_0", 1)]
    is_running := true
    devices_grabbed := true
    uinput := true
    devices := [⟨"/dev/input/event3", some {29, 32, 42, 56, 67}, true⟩] }

/-- C1: for every sequence of key-down/key-up/key-repeat events, the set
suppressed_keys stays a subset of pressed_keys after each processed event,
and a key code leaves suppressed_keys exactly when that key is released
(the only event shape that can remove it, and a release does remove it) or
when the engine stops. -/
theorem claim_C1 (st : GS) (es : List KeyEvent) (e : KeyEvent) (c : Nat) (t : ℚ) :
    (st.suppressed_keys ⊆ st.pressed_keys →
      (process_events st es).suppressed_keys ⊆ (process_events st es).pressed_keys)
  ∧ (c ∈ st.suppressed_keys → c ∉ (process_event st e).1.suppressed_keys →
      e.etype = 1 ∧ e.value = 0 ∧ e.code = c)
  ∧ (c ∈ st.suppressed_keys →
      (process_event st ⟨1, c, 0, t⟩).1.suppressed_keys = st.suppressed_keys.erase c)
  ∧ (st.is_running = true → (stop st).suppressed_keys = ∅) :=
  ⟨fun h => suppressed_subset_trace es st h,
   fun hc hc2 => suppressed_removal st e c hc hc2,
   fun hc => key_up_clears_suppressed st c t hc,
   fun h => stop_clears_suppressed st h⟩

theorem claim_C1_witness :
    ((process_events exEngaged [⟨1, 32, 0, 2⟩]).suppressed_keys ⊆
      (process_events exEngaged [⟨1, 32, 0, 2⟩]).pressed_keys)
  ∧ ((1 : Nat) = 1 ∧ (0 : Nat) = 0 ∧ (32 : Nat) = 32)
  ∧ (process_event exEngaged ⟨1, 32, 0, 2⟩).1.suppressed_keys =
      exEngaged.suppressed_keys.erase 32
  ∧ (stop exEngaged).suppressed_keys = ∅ := by
  have h := claim_C1 exEngaged [⟨1, 32, 0, 2⟩] ⟨1, 32, 0, 2⟩ 32 2
  exact ⟨h.1 (by decide), h.2.1 (by decide) (by with_unfolding_all decide),
    h.2.2.1 (by decide), h.2.2.2 (by decide)⟩

/-- C5: no modifier key code is ever in suppressed_keys after processing
any event (for any trace from a state satisfying the invariant), and a
modifier key release is never suppressed. -/
theorem claim_C5 (st : GS) (es : List KeyEvent) (c : Nat) (t : ℚ) :
    (st.suppressed_keys ∩ MODIFIER_KEYS = ∅ →
      (process_events st es).suppressed_keys ∩ MODIFIER_KEYS = ∅)
  ∧ (c ∈ MODIFIER_KEYS → (process_event st ⟨1, c, 0, t⟩).2 = false) :=
  ⟨fun h => suppressed_modifier_trace es st h,
   fun h => modifier_release_passes st c t h⟩

theorem claim_C5_witness :
    ((process_events exEngaged [⟨1, 42, 1, 2⟩, ⟨1, 32, 0, 3⟩, ⟨1, 32, 1, 4⟩]).suppressed_keys
      ∩ MODIFIER_KEYS = ∅)
  ∧ (process_event exEngaged ⟨1, 29, 0, 9⟩).2 = false := by
  have h := claim_C5 exEngaged [⟨1, 42, 1, 2⟩, ⟨1, 32, 0, 3⟩, ⟨1, 32, 1, 4⟩] 29 9
  exact ⟨h.1 (by decide), h.2 (by decide)⟩

/-- C9: a key-repeat event (keystate 2) never mutates the engine state:
the whole state record is returned unchanged (so pressed_keys,
suppressed_keys, active_shortcuts, both timestamp maps and both callback
logs are untouched), and the event is suppressed exactly when the key is
currently in suppressed_keys. -/
theorem claim_C9 (st : GS) (c : Nat) (t : ℚ) :
    process_event st ⟨1, c, 2, t⟩ = (st, decide (c ∈ st.suppressed_keys)) :=
  process_event_repeat st c t

/-- C10: a failed registration is atomic: whenever the combination string
does not parse, add_shortcut returns no id and the whole engine state is
returned unchanged. -/
theorem claim_C10 (ec : String → Option Nat) (st : GS) (key_string : String)
    (cb rcb : Bool) (h : parse_key_combination ec key_string = none) :
    add_shortcut ec st key_string cb rcb = (none, st) := by
  unfold add_shortcut
  rw [h]

theorem claim_C10_witness :
    add_shortcut ecodesFrag exEngaged ("ctrl+bogusqq") true true = (none, exEngaged) :=
  claim_C10 ecodesFrag exEngaged ("ctrl+bogusqq") true true (by decide)

/-- An engine with ctrl+d registered and only ctrl currently pressed. -/
def exPartial : GS := { init none true with shortcuts := [ctrlD], pressed_keys := {29} }

/-- An engine with ctrl+d registered and nothing pressed. -/
def exFresh : GS := { init none true with shortcuts := [ctrlD] }

/-- C2 counterexample: with ctrl+d registered, press ctrl, press d (the
shortcut becomes active), then release d. The release breaks the match and
the release callback is dispatched, but the shortcut id is still in
active_shortcuts after the key-up: the active flag is not cleared on the
breaking key-up, contradicting the claim. -/
theorem claim_C2_cex :
    ("ctrl+d_0" ∈ (process_events exFresh
        [⟨1, 29, 1, 1⟩, ⟨1, 32, 1, 2⟩, ⟨1, 32, 0, 3⟩]).active_shortcuts)
  ∧ (process_events exFresh
        [⟨1, 29, 1, 1⟩, ⟨1, 32, 1, 2⟩, ⟨1, 32, 0, 3⟩]).release_invocations
      = ["ctrl+d_0"] :=
  ⟨by with_unfolding_all decide, by with_unfolding_all decide⟩

/-- C2 (amended): active_shortcuts is modified only by key-down events.
After a key-down, a registered shortcut id (ids pairwise distinct) is in
active_shortcuts iff the shortcut is a full, unambiguous match of the new
pressed set and either it was already active or more than the debounce
interval has passed since its last trigger; key-up and key-repeat events
leave active_shortcuts unchanged. In particular, on the key-up that breaks
an active shortcut's match the release callback is dispatched (when the
release debounce allows), but the active flag is not cleared there — it is
cleared only by a later key-down that observes a non-match. -/
theorem claim_C2_amended (st : GS) (e : KeyEvent) (sc : Shortcut) (c : Nat) (t : ℚ) :
    (e.value ≠ 1 → (process_event st e).1.active_shortcuts = st.active_shortcuts)
  ∧ (st.shortcuts.Pairwise (fun a b => a.id ≠ b.id) → sc ∈ st.shortcuts →
      (sc.id ∈ (process_event st ⟨1, c, 1, t⟩).1.active_shortcuts ↔
        (is_match (insert c st.pressed_keys) sc = true ∧
          (sc.id ∈ st.active_shortcuts ∨
            t - dict_get st.last_trigger_times sc.id > debounce_time))))
  ∧ (st.shortcuts = [sc] → sc.id ∈ st.active_shortcuts →
      ¬ sc.target_keys ⊆ st.pressed_keys.erase c →
      t - dict_get st.last_release_times sc.id > debounce_time →
      ((process_event st ⟨1, c, 0, t⟩).1.release_invocations =
        (if sc.has_release_callback then sc.id :: st.release_invocations
         else st.release_invocations))
      ∧ (process_event st ⟨1, c, 0, t⟩).1.active_shortcuts = st.active_shortcuts) :=
  ⟨fun h => active_unchanged_nondown st e h,
   fun hpw hmem => down_active_mem st sc c t hpw hmem,
   fun hsc ha hb hd => up_release_dispatch st sc c t hsc ha hb hd⟩

theorem claim_C2_amended_witness :
    ((process_event exEngaged ⟨1, 32, 2, 5⟩).1.active_shortcuts =
      exEngaged.active_shortcuts)
  ∧ ("ctrl+d_0" ∈ (process_event exPartial ⟨1, 32, 1, 5⟩).1.active_shortcuts)
  ∧ (process_event exEngaged ⟨1, 32, 0, 9⟩).1.release_invocations = ["ctrl+d_0"]
  ∧ (process_event exEngaged ⟨1, 32, 0, 9⟩).1.active_shortcuts =
      exEngaged.active_shortcuts := by
  have h1 := claim_C2_amended exEngaged ⟨1, 32, 2, 5⟩ ctrlD 32 5
  have h2 := claim_C2_amended exPartial ⟨1, 32, 1, 5⟩ ctrlD 32 5
  have h3 := claim_C2_amended exEngaged ⟨1, 32, 0, 9⟩ ctrlD 32 9
  refine ⟨h1.1 (by decide), ?_, ?_, ?_⟩
  · exact (h2.2.1 (by decide) (by decide)).mpr
      ⟨by decide, Or.inr (by with_unfolding_all decide)⟩
  · exact (h3.2.2 rfl (by decide) (by decide) (by with_unfolding_all decide)).1
  · exact (h3.2.2 rfl (by decide) (by decide) (by with_unfolding_all decide)).2

/-- C4 counterexample: pressing left-ctrl, then d, then left-shift (one of
the key-down orders the claim quantifies over, with no releases) does
activate the ctrl+d shortcut and does invoke its press callback: the
shortcut fires at the d key-down, before shift joins. -/
theorem claim_C4_cex :
    (process_events exFresh
        [⟨1, 29, 1, 1⟩, ⟨1, 32, 1, 2⟩, ⟨1, 42, 1, 3⟩]).press_invocations = ["ctrl+d_0"]
  ∧ ("ctrl+d_0" ∈
      (process_events exFresh [⟨1, 29, 1, 1⟩, ⟨1, 32, 1, 2⟩]).active_shortcuts) :=
  ⟨by with_unfolding_all decide, by with_unfolding_all decide⟩

/-- C4 (amended): for every trace pressing left-ctrl, left-shift and d (no
releases, arbitrary event times) in a key-down order in which shift is not
the last of the three keys pressed, a shortcut registered for ctrl+d alone
is never activated and its press callback is never invoked, after every
prefix of the trace; if ctrl and d are both pressed before shift, the
shortcut does activate at the moment d and ctrl are down (counterexample
above). -/
theorem claim_C4_amended (t1 t2 t3 : ℚ) (o1 o2 o3 : Nat)
    (h : (o1, o2, o3) = (29, 42, 32) ∨ (o1, o2, o3) = (42, 29, 32) ∨
         (o1, o2, o3) = (42, 32, 29) ∨ (o1, o2, o3) = (32, 42, 29)) (k : Nat) :
    ("ctrl+d_0" ∉ (process_events exFresh
        (([⟨1, o1, 1, t1⟩, ⟨1, o2, 1, t2⟩, ⟨1, o3, 1, t3⟩] :
          List KeyEvent).take k)).active_shortcuts)
  ∧ (process_events exFresh
        (([⟨1, o1, 1, t1⟩, ⟨1, o2, 1, t2⟩, ⟨1, o3, 1, t3⟩] :
          List KeyEvent).take k)).press_invocations = [] := by
  simp only [Prod.mk.injEq] at h
  rcases h with ⟨rfl, rfl, rfl⟩ | ⟨rfl, rfl, rfl⟩ | ⟨rfl, rfl, rfl⟩ | ⟨rfl, rfl, rfl⟩
  · have s1 : (process_event exFresh ⟨1, 29, 1, t1⟩).1 =
        { exFresh with pressed_keys := insert 29 exFresh.pressed_keys } := by
      rw [down_single_nomatch exFresh ctrlD 29 t1 rfl (by decide) (by decide)]
    have s2 : (process_event { exFresh with pressed_keys := insert 29 exFresh.pressed_keys } ⟨1, 42, 1, t2⟩).1 =
        { exFresh with pressed_keys := insert 42 (insert 29 exFresh.pressed_keys) } := by
      rw [down_single_nomatch { exFresh with pressed_keys := insert 29 exFresh.pressed_keys } ctrlD 42 t2 rfl
        (by decide) (by decide)]
    have s3 : (process_event { exFresh with pressed_keys := insert 42 (insert 29 exFresh.pressed_keys) } ⟨1, 32, 1, t3⟩).1 =
        { exFresh with pressed_keys := insert 32 (insert 42 (insert 29 exFresh.pressed_keys)) } := by
      rw [down_single_nomatch { exFresh with pressed_keys := insert 42 (insert 29 exFresh.pressed_keys) } ctrlD 32 t3 rfl
        (by decide) (by decide)]
    rcases k with _ | _ | _ | k
    · rw [List.take_zero, process_events_nil]
      exact ⟨by decide, rfl⟩
    · rw [show List.take 1 ([⟨1, 29, 1, t1⟩, ⟨1, 42, 1, t2⟩, ⟨1, 32, 1, t3⟩] :
          List KeyEvent) = [⟨1, 29, 1, t1⟩] from rfl,
        process_events_cons, s1, process_events_nil]
      exact ⟨by decide, rfl⟩
    · rw [show List.take 2 ([⟨1, 29, 1, t1⟩, ⟨1, 42, 1, t2⟩, ⟨1, 32, 1, t3⟩] :
          List KeyEvent) = [⟨1, 29, 1, t1⟩, ⟨1, 42, 1, t2⟩] from rfl,
        process_events_cons, s1, process_events_cons, s2, process_events_nil]
      exact ⟨by decide, rfl⟩
    · rw [List.take_of_length_le (by simp), process_events_cons, s1,
        process_events_cons, s2, process_events_cons, s3, process_events_nil]
      exact ⟨by decide, rfl⟩
  · have s1 : (process_event exFresh ⟨1, 42, 1, t1⟩).1 =
        { exFresh with pressed_keys := insert 42 exFresh.pressed_keys } := by
      rw [down_single_nomatch exFresh ctrlD 42 t1 rfl (by decide) (by decide)]
    have s2 : (process_event { exFresh with pressed_keys := insert 42 exFresh.pressed_keys } ⟨1, 29, 1, t2⟩).1 =
        { exFresh with pressed_keys := insert 29 (insert 42 exFresh.pressed_keys) } := by
      rw [down_single_nomatch { exFresh with pressed_keys := insert 42 exFresh.pressed_keys } ctrlD 29 t2 rfl
        (by decide) (by decide)]
    have s3 : (process_event { exFresh with pressed_keys := insert 29 (insert 42 exFresh.pressed_keys) } ⟨1, 32, 1, t3⟩).1 =
        { exFresh with pressed_keys := insert 32 (insert 29 (insert 42 exFresh.pressed_keys)) } := by
      rw [down_single_nomatch { exFresh with pressed_keys := insert 29 (insert 42 exFresh.pressed_keys) } ctrlD 32 t3 rfl
        (by decide) (by decide)]
    rcases k with _ | _ | _ | k
    · rw [List.take_zero, process_events_nil]
      exact ⟨by decide, rfl⟩
    · rw [show List.take 1 ([⟨1, 42, 1, t1⟩, ⟨1, 29, 1, t2⟩, ⟨1, 32, 1, t3⟩] :
          List KeyEvent) = [⟨1, 42, 1, t1⟩] from rfl,
        process_events_cons, s1, process_events_nil]
      exact ⟨by decide, rfl⟩
    · rw [show List.take 2 ([⟨1, 42, 1, t1⟩, ⟨1, 29, 1, t2⟩, ⟨1, 32, 1, t3⟩] :
          List KeyEvent) = [⟨1, 42, 1, t1⟩, ⟨1, 29, 1, t2⟩] from rfl,
        process_events_cons, s1, process_events_cons, s2, process_events_nil]
      exact ⟨by decide, rfl⟩
    · rw [List.take_of_length_le (by simp), process_events_cons, s1,
        process_events_cons, s2, process_events_cons, s3, process_events_nil]
      exact ⟨by decide, rfl⟩
  · have s1 : (process_event exFresh ⟨1, 42, 1, t1⟩).1 =
        { exFresh with pressed_keys := insert 42 exFresh.pressed_keys } := by
      rw [down_single_nomatch exFresh ctrlD 42 t1 rfl (by decide) (by decide)]
    have s2 : (process_event { exFresh with pressed_keys := insert 42 exFresh.pressed_keys } ⟨1, 32, 1, t2⟩).1 =
        { exFresh with pressed_keys := insert 32 (insert 42 exFresh.pressed_keys) } := by
      rw [down_single_nomatch { exFresh with pressed_keys := insert 42 exFresh.pressed_keys } ctrlD 32 t2 rfl
        (by decide) (by decide)]
    have s3 : (process_event { exFresh with pressed_keys := insert 32 (insert 42 exFresh.pressed_keys) } ⟨1, 29, 1, t3⟩).1 =
        { exFresh with pressed_keys := insert 29 (insert 32 (insert 42 exFresh.pressed_keys)) } := by
      rw [down_single_nomatch { exFresh with pressed_keys := insert 32 (insert 42 exFresh.pressed_keys) } ctrlD 29 t3 rfl
        (by decide) (by decide)]
    rcases k with _ | _ | _ | k
    · rw [List.take_zero, process_events_nil]
      exact ⟨by decide, rfl⟩
    · rw [show List.take 1 ([⟨1, 42, 1, t1⟩, ⟨1, 32, 1, t2⟩, ⟨1, 29, 1, t3⟩] :
          List KeyEvent) = [⟨1, 42, 1, t1⟩] from rfl,
        process_events_cons, s1, process_events_nil]
      exact ⟨by decide, rfl⟩
    · rw [show List.take 2 ([⟨1, 42, 1, t1⟩, ⟨1, 32, 1, t2⟩, ⟨1, 29, 1, t3⟩] :
          List KeyEvent) = [⟨1, 42, 1, t1⟩, ⟨1, 32, 1, t2⟩] from rfl,
        process_events_cons, s1, process_events_cons, s2, process_events_nil]
      exact ⟨by decide, rfl⟩
    · rw [List.take_of_length_le (by simp), process_events_cons, s1,
        process_events_cons, s2, process_events_cons, s3, process_events_nil]
      exact ⟨by decide, rfl⟩
  · have s1 : (process_event exFresh ⟨1, 32, 1, t1⟩).1 =
        { exFresh with pressed_keys := insert 32 exFresh.pressed_keys } := by
      rw [down_single_nomatch exFresh ctrlD 32 t1 rfl (by decide) (by decide)]
    have s2 : (process_event { exFresh with pressed_keys := insert 32 exFresh.pressed_keys } ⟨1, 42, 1, t2⟩).1 =
        { exFresh with pressed_keys := insert 42 (insert 32 exFresh.pressed_keys) } := by
      rw [down_single_nomatch { exFresh with pressed_keys := insert 32 exFresh.pressed_keys } ctrlD 42 t2 rfl
        (by decide) (by decide)]
    have s3 : (process_event { exFresh with pressed_keys := insert 42 (insert 32 exFresh.pressed_keys) } ⟨1, 29, 1, t3⟩).1 =
        { exFresh with pressed_keys := insert 29 (insert 42 (insert 32 exFresh.pressed_keys)) } := by
      rw [down_single_nomatch { exFresh with pressed_keys := insert 42 (insert 32 exFresh.pressed_keys) } ctrlD 29 t3 rfl
        (by decide) (by decide)]
    rcases k with _ | _ | _ | k
    · rw [List.take_zero, process_events_nil]
      exact ⟨by decide, rfl⟩
    · rw [show List.take 1 ([⟨1, 32, 1, t1⟩, ⟨1, 42, 1, t2⟩, ⟨1, 29, 1, t3⟩] :
          List KeyEvent) = [⟨1, 32, 1, t1⟩] from rfl,
        process_events_cons, s1, process_events_nil]
      exact ⟨by decide, rfl⟩
    · rw [show List.take 2 ([⟨1, 32, 1, t1⟩, ⟨1, 42, 1, t2⟩, ⟨1, 29, 1, t3⟩] :
          List KeyEvent) = [⟨1, 32, 1, t1⟩, ⟨1, 42, 1, t2⟩] from rfl,
        process_events_cons, s1, process_events_cons, s2, process_events_nil]
      exact ⟨by decide, rfl⟩
    · rw [List.take_of_length_le (by simp), process_events_cons, s1,
        process_events_cons, s2, process_events_cons, s3, process_events_nil]
      exact ⟨by decide, rfl⟩

theorem claim_C4_amended_witness :
    ((1 : ℚ) = 1 ∧ ((42 : Nat), (29 : Nat), (32 : Nat)) = (42, 29, 32))
  ∧ ("ctrl+d_0" ∉ (process_events exFresh
        (([⟨1, 42, 1, 1⟩, ⟨1, 29, 1, 2⟩, ⟨1, 32, 1, 3⟩] :
          List KeyEvent).take 3)).active_shortcuts)
  ∧ (process_events exFresh
        (([⟨1, 42, 1, 1⟩, ⟨1, 29, 1, 2⟩, ⟨1, 32, 1, 3⟩] :
          List KeyEvent).take 3)).press_invocations = [] := by
  have h := claim_C4_amended 1 2 3 42 29 32 (Or.inr (Or.inl rfl)) 3
  exact ⟨⟨rfl, rfl⟩, h.1, h.2⟩

/-- An engine with only ctrl+alt+d registered and nothing pressed. -/
def exCtrlAltD : GS := { init none true with shortcuts := [ctrlAltD] }

/-- An engine with only the single-key shortcut f9 registered. -/
def exF9 : GS := { init none true with shortcuts := [f9sc] }

/-- The canonical two-activation trace for ctrl+alt+d, without its last
event: press ctrl, alt, d in order (the shortcut fires at the d key-down,
time 3), release all three, then press ctrl and alt again. The second d
key-down is appended with a symbolic time. -/
def c3_first8 : List KeyEvent :=
  [⟨1, 29, 1, 1⟩, ⟨1, 56, 1, 2⟩, ⟨1, 32, 1, 3⟩,
   ⟨1, 32, 0, 4⟩, ⟨1, 56, 0, 5⟩, ⟨1, 29, 0, 6⟩,
   ⟨1, 29, 1, 7⟩, ⟨1, 56, 1, 8⟩]

/-- The engine state after processing c3_first8 from exCtrlAltD. -/
def c3_S8 : GS :=
  { selected_device_path := none
    grab_keys := true
    devices := []
    is_running := false
    uinput := false
    devices_grabbed := false
    pressed_keys := {29, 56}
    last_trigger_times := [("ctrl+alt+d_0", 3)]
    last_release_times := [("ctrl+alt+d_0", 6)]
    active_shortcuts := ∅
    suppressed_keys := ∅
    shortcuts := [ctrlAltD]
    all_required_keys := ∅
    press_invocations := ["ctrl+alt+d_0"]
    release_invocations := ["ctrl+alt+d_0", "ctrl+alt+d_0", "ctrl+alt+d_0"] }

theorem c3_first8_eval : process_events exCtrlAltD c3_first8 = c3_S8 :=
  gs_ext (by with_unfolding_all decide) (by with_unfolding_all decide)
    (by with_unfolding_all decide) (by with_unfolding_all decide)
    (by with_unfolding_all decide) (by with_unfolding_all decide)
    (by with_unfolding_all decide) (by with_unfolding_all decide)
    (by with_unfolding_all decide) (by with_unfolding_all decide)
    (by with_unfolding_all decide)
    (by rw [process_events_shortcuts]; rfl)
    (by with_unfolding_all decide) (by with_unfolding_all decide)
    (by with_unfolding_all decide)

/-- C3 counterexample: a registered single-key shortcut (f9) is fully
pressed twice with a full release in between and the two activations
separated by 3 seconds, far above the 100 ms debounce interval; yet the
press callback is invoked exactly once, not twice, because the active flag
survives the release and blocks the second activation. -/
theorem claim_C3_cex :
    ((4 : ℚ) - 1 > debounce_time)
  ∧ (process_events exF9
      [⟨1, 67, 1, 1⟩, ⟨1, 67, 0, 2⟩, ⟨1, 67, 1, 4⟩]).press_invocations.length = 1 :=
  ⟨by with_unfolding_all decide, by with_unfolding_all decide⟩

theorem c3_S8_trigger_time : dict_get c3_S8.last_trigger_times ("ctrl+alt+d_0") = 3 := by
  with_unfolding_all decide

/-- C3 (amended): the claimed debounce behaviour holds for combinations of
at least two keys, here ctrl+alt+d pressed in order, fully released, and
pressed again (trace c3_first8 followed by the second d key-down at an
arbitrary time t9): the two completing key-downs happen at times 3 and t9,
and the engine produces exactly one press-callback invocation when their
separation is below the 100 ms debounce interval and exactly two when it
is above it. For a single-key shortcut the second activation is swallowed
regardless of separation (see the counterexample), because the active flag
is not cleared by the full release. -/
theorem claim_C3_amended (t9 : ℚ) :
    (t9 - 3 < debounce_time →
      (process_events exCtrlAltD
        (c3_first8 ++ [⟨1, 32, 1, t9⟩])).press_invocations.length = 1)
  ∧ (t9 - 3 > debounce_time →
      (process_events exCtrlAltD
        (c3_first8 ++ [⟨1, 32, 1, t9⟩])).press_invocations.length = 2) := by
  have hsplit : process_events exCtrlAltD (c3_first8 ++ [⟨1, 32, 1, t9⟩]) =
      (process_event c3_S8 ⟨1, 32, 1, t9⟩).1 := by
    unfold process_events
    rw [List.foldl_append]
    rw [show List.foldl (fun s e => (process_event s e).1) exCtrlAltD c3_first8 = c3_S8
      from c3_first8_eval]
    rfl
  rw [hsplit]
  have hm : is_match (insert 32 c3_S8.pressed_keys) ctrlAltD = true := by decide
  constructor
  · intro hlt
    have hskip := down_single_skip c3_S8 ctrlAltD 32 t9 rfl hm (by
      rintro ⟨-, hgt⟩
      rw [show ctrlAltD.id = ("ctrl+alt+d_0") from rfl, c3_S8_trigger_time] at hgt
      exact absurd hgt (lt_asymm hlt))
    rw [hskip]
    with_unfolding_all rfl
  · intro hgt
    have hd : t9 - dict_get c3_S8.last_trigger_times ctrlAltD.id > debounce_time := by
      rw [show ctrlAltD.id = ("ctrl+alt+d_0") from rfl, c3_S8_trigger_time]
      exact hgt
    have hfire := down_single_fire c3_S8 ctrlAltD 32 t9 rfl hm (by decide) hd
    rw [hfire]
    with_unfolding_all rfl

theorem claim_C3_amended_witness :
    ((9 : ℚ) - 3 > debounce_time)
  ∧ (process_events exCtrlAltD
      (c3_first8 ++ [⟨1, 32, 1, 9⟩])).press_invocations.length = 2 := by
  have h := claim_C3_amended 9
  exact ⟨by with_unfolding_all decide, h.2 (by with_unfolding_all decide)⟩

/-- C6 counterexample: the segment bogusqq resolves to no known key, yet
the standalone parser used by the device-diagnostics filter does not fail
the whole combination: it returns the partial set {KEY_LEFTCTRL} for
ctrl+bogusqq (while the registration-path parser correctly returns none). -/
theorem claim_C6_cex :
    string_to_keycode_standalone ecodesFrag ("bogusqq") = none
  ∧ parse_key_combination_standalone ecodesFrag ("ctrl+bogusqq") = {29}
  ∧ parse_key_combination ecodesFrag ("ctrl+bogusqq") = none :=
  ⟨by decide, by decide, by decide⟩

/-- C6 (amended): in the registration-path parser any unresolved segment
fails the whole combination (none is returned, never a partial set). The
standalone parser never fails: when every segment resolves it returns the
same key set as the registration parser, and when no segment resolves it
falls back to the singleton {KEY_F12}; unresolved segments are silently
skipped, so a partially resolvable combination yields a partial set. -/
theorem claim_C6_amended (ec : String → Option Nat) (key_string : String)
    (keys : Finset Nat) :
    ((∃ p ∈ combination_parts key_string,
        string_to_keycode ec (PyStr.strip p) = none) →
      parse_key_combination ec key_string = none)
  ∧ (parse_key_combination ec key_string = some keys → keys ≠ ∅ →
      parse_key_combination_standalone ec key_string = keys)
  ∧ (resolve_parts_standalone ec (combination_parts key_string) = ∅ →
      parse_key_combination_standalone ec key_string = {88}) := by
  refine ⟨fun h => resolve_parts_none ec _ h, fun h hne => ?_, fun h => ?_⟩
  · unfold parse_key_combination at h
    unfold parse_key_combination_standalone
    rw [resolve_parts_agree ec _ keys h, if_neg hne]
  · unfold parse_key_combination_standalone
    rw [h, if_pos rfl]

theorem claim_C6_amended_witness :
    parse_key_combination ecodesFrag ("alt+nosuchkeyqq") = none
  ∧ parse_key_combination_standalone ecodesFrag ("ctrl+alt+d") = {29, 56, 32}
  ∧ parse_key_combination_standalone ecodesFrag ("nosuchkeyqq") = {88} := by
  have h1 := claim_C6_amended ecodesFrag ("alt+nosuchkeyqq") ∅
  have h2 := claim_C6_amended ecodesFrag ("ctrl+alt+d") ({29, 56, 32} : Finset Nat)
  have h3 := claim_C6_amended ecodesFrag ("nosuchkeyqq") ∅
  exact ⟨h1.1 ⟨("nosuchkeyqq"), by decide, by decide⟩,
    h2.2.1 (by decide) (by decide), h3.2.2 (by decide)⟩

/-- A device at an explicit path that reports no EV_KEY capability at all,
but would pass the grab probe. -/
def exNoCapsDev : InDevice := ⟨"/dev/input/event5", none, true⟩

/-- A normal keyboard device. -/
def exKbdDev : InDevice := ⟨"/dev/input/event3", some {29, 32, 42, 56, 67}, true⟩

/-- C7 counterexample: with an explicit device path selected and a device
present at that path whose grab probe would succeed, discovery still
yields zero devices when the device lacks EV_KEY capability — capability
filtering is applied to an explicitly selected device, contradicting the
claim that the device is returned whenever the probe succeeds. -/
theorem claim_C7_cex :
    exNoCapsDev.grabbable = true
  ∧ (discover_keyboards
      { init (some ("/dev/input/event5")) true with shortcuts := [ctrlD] }
      [exNoCapsDev]).devices = [] :=
  ⟨rfl, by decide⟩

/-- C7 (amended): with an explicit device path and shortcuts registered,
discovery considers only the device at that path and skips the
per-shortcut key-coverage filter for it (an uncovered device is kept with
a warning), but still requires the device to report EV_KEY capability; the
device is returned iff it reports EV_KEY and the grab/ungrab probe
succeeds, and when no device exists at the path discovery reports it
non-fatally and yields zero devices. -/
theorem claim_C7_amended (st : GS) (os_devices : List InDevice) (p : String)
    (d : InDevice) (hsel : st.selected_device_path = some p)
    (hs : st.shortcuts ≠ []) :
    (find_selected os_devices p = none → (discover_keyboards st os_devices).devices = [])
  ∧ (find_selected os_devices p = some d →
      (discover_keyboards st os_devices).devices =
        (match d.keyCaps with
         | none => []
         | some _ => if d.grabbable then [d] else [])) := by
  have hne : ¬ st.shortcuts.isEmpty = true := by
    cases h2 : st.shortcuts with
    | nil => exact absurd h2 hs
    | cons a l => simp [List.isEmpty]
  constructor
  · intro hfind
    unfold discover_keyboards
    rw [if_neg hne, hsel]
    dsimp only
    rw [hfind]
  · intro hfind
    unfold discover_keyboards
    rw [if_neg hne, hsel]
    dsimp only
    rw [hfind]
    show discover_loop true st.shortcuts [] [d] = _
    cases hk : d.keyCaps with
    | none => simp only [discover_loop, hk]
    | some caps =>
      by_cases hg : d.grabbable = true
      · simp only [discover_loop, hk, hg]
        simp
      · simp only [discover_loop, hk, hg]
        simp [hg]

theorem claim_C7_amended_witness :
    (discover_keyboards
      { init (some ("/dev/input/event9")) true with shortcuts := [ctrlD] }
      [exKbdDev]).devices = []
  ∧ (discover_keyboards
      { init (some ("/dev/input/event3")) true with shortcuts := [ctrlD] }
      [exKbdDev]).devices = [exKbdDev] := by
  have h1 := claim_C7_amended
    { init (some ("/dev/input/event9")) true with shortcuts := [ctrlD] }
    [exKbdDev] ("/dev/input/event9") exKbdDev rfl (by decide)
  have h2 := claim_C7_amended
    { init (some ("/dev/input/event3")) true with shortcuts := [ctrlD] }
    [exKbdDev] ("/dev/input/event3") exKbdDev rfl (by decide)
  exact ⟨h1.1 (by decide), by rw [h2.2 (by decide)]; rfl⟩

/-- A running engine with held keys, an active shortcut, recorded
timestamps, a grabbed device and an open virtual keyboard. -/
def exRunning : GS :=
  { init none true with
    is_running := true
    devices_grabbed := true
    uinput := true
    devices := [exKbdDev]
    pressed_keys := {29, 32}
    suppressed_keys := {32}
    active_shortcuts := {"ctrl+d_0"}
    last_trigger_times := [("ctrl+d_0", 5)]
    last_release_times := [("ctrl+d_0", 6)]
    shortcuts := [ctrlD] }

/-- C8 counterexample: stop() on a running engine leaves active_shortcuts
and both per-shortcut timestamp maps untouched — the runtime state is not
fully cleared, contradicting the claim. -/
theorem claim_C8_cex :
    exRunning.is_running = true
  ∧ (stop exRunning).active_shortcuts = {"ctrl+d_0"}
  ∧ (stop exRunning).last_trigger_times = [("ctrl+d_0", 5)]
  ∧ (stop exRunning).last_release_times = [("ctrl+d_0", 6)] :=
  ⟨rfl, by with_unfolding_all decide, by with_unfolding_all decide,
    by with_unfolding_all decide⟩

/-- C8 (amended): after stop() on a running engine, pressed_keys and
suppressed_keys are cleared, every device is removed, no device remains
grabbed and the virtual keyboard is closed, and the engine is no longer
running; but active_shortcuts and the per-shortcut last-trigger and
last-release timestamp maps are left exactly as they were. -/
theorem claim_C8_amended (st : GS) (h : st.is_running = true) :
    (stop st).pressed_keys = ∅
  ∧ (stop st).suppressed_keys = ∅
  ∧ (stop st).devices = []
  ∧ (stop st).devices_grabbed = false
  ∧ (stop st).uinput = false
  ∧ (stop st).is_running = false
  ∧ (stop st).active_shortcuts = st.active_shortcuts
  ∧ (stop st).last_trigger_times = st.last_trigger_times
  ∧ (stop st).last_release_times = st.last_release_times := by
  unfold stop
  rw [if_neg (by rw [h]; exact fun hn => hn rfl)]
  refine ⟨rfl, rfl, rfl, ?_, ?_, rfl, ?_, ?_, ?_⟩
  · exact (cleanup_flags st).1
  · exact (cleanup_flags st).2
  · exact (cleanup_frame st).1
  · exact (cleanup_frame st).2.1
  · exact (cleanup_frame st).2.2

theorem claim_C8_amended_witness :
    (stop exRunning).pressed_keys = ∅
  ∧ (stop exRunning).suppressed_keys = ∅
  ∧ (stop exRunning).devices = []
  ∧ (stop exRunning).devices_grabbed = false
  ∧ (stop exRunning).uinput = false
  ∧ (stop exRunning).is_running = false
  ∧ (stop exRunning).active_shortcuts = {"ctrl+d_0"}
  ∧ (stop exRunning).last_trigger_times = [("ctrl+d_0", 5)]
  ∧ (stop exRunning).last_release_times = [("ctrl+d_0", 6)] := by
  have h := claim_C8_amended exRunning rfl
  exact h
